import Mathlib

/-!
Verification development for the `RayTracing_Rust` path tracer
(consolidated implementation under `src/`).

Modelling conventions, used throughout:

* `f64` values are modelled as exact rationals (`ℚ`).  The special values
  `f64::INFINITY` / `f64::NEG_INFINITY`, which the code stores in `Interval`
  bounds (`Interval::empty`, `Interval::universe`, the camera's query
  interval `(0.001, ∞)`), are modelled by the three-valued type `Ext`
  (`ninf | fin q | pinf`) with IEEE-754 comparison and (partial) arithmetic
  semantics on the cases the code can reach.  NaN never appears in the
  modelled computations.
* The transcendental helpers `sqrt`, `ln`, `cos`, `sin` and the constant
  `PI` have no exact rational counterpart; they are abstracted as the
  fields of a `FloatOps` parameter that is threaded through the
  definitions exactly where the source calls them.  Theorems that need a
  property of one of them (for instance `ln u < 0` for `u ∈ (0,1)`)
  take it as an explicit hypothesis.
* The global thread-local RNG (`utils::random_double`, a uniform draw in
  `[0,1)`; the module is declared in `ray_tracing/mod.rs` but its file is
  not part of the snapshot, so the draw is modelled from the spec as an
  abstract stream of rationals) is modelled by a stream `RNG := ℕ → ℚ`;
  every function that draws randomness consumes the stream explicitly in
  source order and returns the remainder.
-/

namespace RT

/-- Extended rationals: the model of an `f64` that may hold `±∞`.
`ninf` is `f64::NEG_INFINITY`, `pinf` is `f64::INFINITY`. -/
inductive Ext where
  | ninf : Ext
  | fin : ℚ → Ext
  | pinf : Ext
deriving DecidableEq, Repr

namespace Ext

/-- IEEE `<` on non-NaN doubles. -/
def blt : Ext → Ext → Bool
  | ninf, ninf => false
  | ninf, _ => true
  | fin _, ninf => false
  | fin a, fin b => a < b
  | fin _, pinf => true
  | pinf, _ => false

/-- IEEE `<=` on non-NaN doubles. -/
def ble : Ext → Ext → Bool
  | ninf, _ => true
  | fin _, ninf => false
  | fin a, fin b => a ≤ b
  | fin _, pinf => true
  | pinf, pinf => true
  | pinf, _ => false

/-- `f64::min` on non-NaN doubles. -/
def emin : Ext → Ext → Ext
  | ninf, _ => ninf
  | _, ninf => ninf
  | pinf, b => b
  | a, pinf => a
  | fin a, fin b => fin (min a b)

/-- `f64::max` on non-NaN doubles. -/
def emax : Ext → Ext → Ext
  | pinf, _ => pinf
  | _, pinf => pinf
  | ninf, b => b
  | a, ninf => a
  | fin a, fin b => fin (max a b)

/-- Subtraction of a finite double from a possibly infinite one
(`±∞ - finite = ±∞`). -/
def subR : Ext → ℚ → Ext
  | ninf, _ => ninf
  | pinf, _ => pinf
  | fin a, r => fin (a - r)

/-- Addition of a finite double (`±∞ + finite = ±∞`). -/
def addR : Ext → ℚ → Ext
  | ninf, _ => ninf
  | pinf, _ => pinf
  | fin a, r => fin (a + r)

/-- Multiplication by a finite *nonzero* double, with the IEEE sign rule
for the infinite cases.  The code only multiplies interval bounds by
`1/dir` after guarding `|dir| ≥ 1e-8`, so the `r = 0` junk value
(`fin 0`) is never reached on modelled paths. -/
def mulR : Ext → ℚ → Ext
  | fin a, r => fin (a * r)
  | pinf, r => if r > 0 then pinf else if r < 0 then ninf else fin 0
  | ninf, r => if r > 0 then ninf else if r < 0 then pinf else fin 0

/-- Subtraction `a - b` of extended values, as used by `Interval::size`.
`∞ - ∞` and `-∞ - -∞` are NaN in IEEE; they are unreachable from the
intervals the code builds, and are given the junk value `fin 0`. -/
def esub : Ext → Ext → Ext
  | fin a, fin b => fin (a - b)
  | pinf, pinf => fin 0
  | ninf, ninf => fin 0
  | pinf, _ => pinf
  | ninf, _ => ninf
  | fin _, pinf => ninf
  | fin _, ninf => pinf

/-- `partial_cmp(..).unwrap_or(Equal)` on non-NaN doubles: a total
comparison. -/
def ecmp (a b : Ext) : Ordering :=
  if blt a b then .lt else if blt b a then .gt else .eq

theorem ble_trans {a b c : Ext} (h1 : ble a b = true) (h2 : ble b c = true) :
    ble a c = true := by
  cases a <;> cases b <;> cases c <;> simp_all [ble] <;> linarith

theorem ble_of_blt {a b : Ext} (h : blt a b = true) : ble a b = true := by
  cases a <;> cases b <;> simp_all [blt, ble] <;> linarith

theorem ble_refl (a : Ext) : ble a a = true := by
  cases a <;> simp [ble]

theorem ble_emax_left (a b : Ext) : ble a (emax a b) = true := by
  cases a <;> cases b <;> simp [ble, emax, le_max_left]

theorem ble_emax_right (a b : Ext) : ble b (emax a b) = true := by
  cases a <;> cases b <;> simp [ble, emax, le_max_right]

theorem ble_emin_left (a b : Ext) : ble (emin a b) a = true := by
  cases a <;> cases b <;> simp [ble, emin, min_le_left]

theorem ble_emin_right (a b : Ext) : ble (emin a b) b = true := by
  cases a <;> cases b <;> simp [ble, emin, min_le_right]

theorem emin_comm (a b : Ext) : emin a b = emin b a := by
  cases a <;> cases b <;> simp [emin, min_comm]

theorem emax_comm (a b : Ext) : emax a b = emax b a := by
  cases a <;> cases b <;> simp [emax, max_comm]

theorem emin_assoc (a b c : Ext) : emin (emin a b) c = emin a (emin b c) := by
  cases a <;> cases b <;> cases c <;> simp [emin, min_assoc]

theorem emax_assoc (a b c : Ext) : emax (emax a b) c = emax a (emax b c) := by
  cases a <;> cases b <;> cases c <;> simp [emax, max_assoc]

theorem ble_fin_fin {a b : ℚ} (h : ble (.fin a) (.fin b) = true) : a ≤ b := by
  simpa [ble] using h

theorem ble_of_emax_fin {a b : Ext} {q : ℚ} (h : emax a b = .fin q) :
    ble b (.fin q) = true := h ▸ ble_emax_right a b

theorem fst_le_of_emax_fin {x : ℚ} {b : Ext} {q : ℚ}
    (h : emax (.fin x) b = .fin q) : x ≤ q :=
  ble_fin_fin (h ▸ ble_emax_left (.fin x) b)

theorem ble_of_emin_fin {a b : Ext} {q : ℚ} (h : emin a b = .fin q) :
    ble (.fin q) b = true := h ▸ ble_emin_right a b

theorem ble_fin_mono {m : Ext} {a b : ℚ} (h : ble m (.fin a) = true)
    (hab : a ≤ b) : ble m (.fin b) = true := by
  cases m <;> simp_all [ble] <;> linarith

theorem fin_ble_mono {M : Ext} {a b : ℚ} (h : ble (.fin a) M = true)
    (hba : b ≤ a) : ble (.fin b) M = true := by
  cases M <;> simp_all [ble] <;> linarith

theorem ble_fin_fin_false {a b : ℚ} (h : ble (.fin a) (.fin b) = false) :
    b < a := by
  simp [ble] at h
  exact h

end Ext

/-- Abstract stand-ins for the `f64` library functions the code calls
(`sqrt`, `ln`, `cos`, `sin`) and the constant `std::f64::consts::PI`.
They have no exact rational counterpart, so each theorem states the
properties it needs of them as hypotheses. -/
structure FloatOps where
  sqrt : ℚ → ℚ
  log : ℚ → ℚ
  cos : ℚ → ℚ
  sin : ℚ → ℚ
  acos : ℚ → ℚ
  atan2 : ℚ → ℚ → ℚ
  pi : ℚ

/-- The thread-local RNG (`random_double`): a stream of draws. -/
def RNG : Type := ℕ → ℚ

/-- One call of `random_double()`: take the next draw, keep the rest. -/
def RNG.next (g : RNG) : ℚ × RNG := (g 0, fun n => g (n + 1))

/-- The constant stream, convenient for concrete evaluations. -/
def RNG.const (q : ℚ) : RNG := fun _ => q

theorem RNG.const_tail (q : ℚ) :
    (fun n => RNG.const q (n + 1)) = RNG.const q := rfl

/-- `nalgebra::Vector3<f64>` (also `Point3` and `Color`, which the code
uses interchangeably through `.coords`). -/
structure Vec3 where
  x : ℚ
  y : ℚ
  z : ℚ
deriving DecidableEq, Repr

namespace Vec3

def zeros : Vec3 := ⟨0, 0, 0⟩

instance : Add Vec3 := ⟨fun a b => ⟨a.x + b.x, a.y + b.y, a.z + b.z⟩⟩
instance : Sub Vec3 := ⟨fun a b => ⟨a.x - b.x, a.y - b.y, a.z - b.z⟩⟩
instance : Neg Vec3 := ⟨fun a => ⟨-a.x, -a.y, -a.z⟩⟩
instance : SMul ℚ Vec3 := ⟨fun q a => ⟨q * a.x, q * a.y, q * a.z⟩⟩

/-- Division of a vector by a scalar. -/
def divQ (a : Vec3) (q : ℚ) : Vec3 := ⟨a.x / q, a.y / q, a.z / q⟩

def dot (a b : Vec3) : ℚ := a.x * b.x + a.y * b.y + a.z * b.z

def cross (a b : Vec3) : Vec3 :=
  ⟨a.y * b.z - a.z * b.y, a.z * b.x - a.x * b.z, a.x * b.y - a.y * b.x⟩

/-- `norm_squared()`. -/
def normSq (a : Vec3) : ℚ := a.dot a

/-- `norm()` (uses the abstract square root). -/
def norm (F : FloatOps) (a : Vec3) : ℚ := F.sqrt a.normSq

/-- `normalize()`: `v / |v|`. -/
def normalize (F : FloatOps) (a : Vec3) : Vec3 := a.divQ (a.norm F)

/-- `component_mul` (Hadamard product, used for color attenuation). -/
def compMul (a b : Vec3) : Vec3 := ⟨a.x * b.x, a.y * b.y, a.z * b.z⟩

@[simp] theorem add_x (a b : Vec3) : (a + b).x = a.x + b.x := rfl
@[simp] theorem add_y (a b : Vec3) : (a + b).y = a.y + b.y := rfl
@[simp] theorem add_z (a b : Vec3) : (a + b).z = a.z + b.z := rfl
@[simp] theorem sub_x (a b : Vec3) : (a - b).x = a.x - b.x := rfl
@[simp] theorem sub_y (a b : Vec3) : (a - b).y = a.y - b.y := rfl
@[simp] theorem sub_z (a b : Vec3) : (a - b).z = a.z - b.z := rfl
@[simp] theorem neg_x (a : Vec3) : (-a).x = -a.x := rfl
@[simp] theorem neg_y (a : Vec3) : (-a).y = -a.y := rfl
@[simp] theorem neg_z (a : Vec3) : (-a).z = -a.z := rfl
@[simp] theorem smul_x (q : ℚ) (a : Vec3) : (q • a).x = q * a.x := rfl
@[simp] theorem smul_y (q : ℚ) (a : Vec3) : (q • a).y = q * a.y := rfl
@[simp] theorem smul_z (q : ℚ) (a : Vec3) : (q • a).z = q * a.z := rfl

@[simp] theorem eq_iff (a b : Vec3) :
    a = b ↔ (a.x = b.x ∧ a.y = b.y ∧ a.z = b.z) := by
  constructor
  · intro h
    exact ⟨congrArg Vec3.x h, congrArg Vec3.y h, congrArg Vec3.z h⟩
  · intro h
    cases a
    cases b
    simp only at h
    simp [h.1, h.2.1, h.2.2]

/-- `Vec3Ext::reflect`: `v - n * 2 * v.dot(n)`. -/
def reflect (v n : Vec3) : Vec3 := v - (2 * v.dot n) • n

/-- `Vec3Ext::refract`. -/
def refract (F : FloatOps) (v n : Vec3) (etaiOverEtat : ℚ) : Vec3 :=
  let cosTheta := min ((-v).dot n) 1
  let rOutPerp := etaiOverEtat • (v + cosTheta • n)
  let rOutParallel := (-(F.sqrt |1 - rOutPerp.normSq|)) • n
  rOutPerp + rOutParallel

end Vec3

/-- `math::ray::Ray`: origin, direction, time. -/
structure Ray where
  orig : Vec3
  dir : Vec3
  time : ℚ
deriving DecidableEq, Repr

/-- `Ray::at(t) = orig + dir * t`. -/
def Ray.at (r : Ray) (t : ℚ) : Vec3 := r.orig + t • r.dir

/-- `math::interval::Interval`, with extended bounds so that
`Interval::empty = [+∞, -∞]` and `Interval::universe = [-∞, +∞]` are
representable exactly as in the source. -/
structure Interval where
  min : Ext
  max : Ext
deriving DecidableEq, Repr

namespace Interval

/-- `Interval::new(min, max)` on finite bounds. -/
def mkQ (a b : ℚ) : Interval := ⟨.fin a, .fin b⟩

/-- `Interval::empty()`. -/
def empty : Interval := ⟨.pinf, .ninf⟩

/-- `Interval::universe()` (named `univ` here; `universe` is a Lean keyword). -/
def univ : Interval := ⟨.ninf, .pinf⟩

/-- `Interval::size() = max - min`. -/
def size (i : Interval) : Ext := Ext.esub i.max i.min

/-- `Interval::contains(x)`: `min <= x && x <= max`. -/
def contains (i : Interval) (t : ℚ) : Bool :=
  Ext.ble i.min (.fin t) && Ext.ble (.fin t) i.max

/-- `Interval::surrounds(x)`: `min < x && x < max`. -/
def surrounds (i : Interval) (t : ℚ) : Bool :=
  Ext.blt i.min (.fin t) && Ext.blt (.fin t) i.max

/-- `Interval::expand(delta)`: pad both ends by `delta / 2`. -/
def expand (i : Interval) (delta : ℚ) : Interval :=
  ⟨i.min.subR (delta / 2), i.max.addR (delta / 2)⟩

/-- `Interval::merge`: componentwise `min` / `max`. -/
def merge (i j : Interval) : Interval :=
  ⟨Ext.emin i.min j.min, Ext.emax i.max j.max⟩

end Interval

theorem surrounds_bounds {I : Interval} {t : ℚ}
    (h : I.surrounds t = true) :
    Ext.ble I.min (.fin t) = true ∧ Ext.ble (.fin t) I.max = true := by
  simp only [Interval.surrounds, Bool.and_eq_true] at h
  exact ⟨Ext.ble_of_blt h.1, Ext.ble_of_blt h.2⟩

theorem contains_bounds {I : Interval} {t : ℚ}
    (h : I.contains t = true) :
    Ext.ble I.min (.fin t) = true ∧ Ext.ble (.fin t) I.max = true := by
  simp only [Interval.contains, Bool.and_eq_true] at h
  exact h

/-- `math::aabb::Aabb`: one interval per axis. -/
structure Aabb where
  x : Interval
  y : Interval
  z : Interval
deriving DecidableEq, Repr

namespace Aabb

/-- `Aabb::empty()`. -/
def empty : Aabb := ⟨.empty, .empty, .empty⟩

/-- `Aabb::axis_interval(axis)`; the source panics on `axis > 2`,
which the callers never do — that branch returns junk here. -/
def axisInterval (b : Aabb) (axis : ℕ) : Interval :=
  if axis = 0 then b.x else if axis = 1 then b.y else b.z

/-- `Aabb::longest_axis()`. -/
def longestAxis (b : Aabb) : ℕ :=
  let xs := b.x.size
  let ys := b.y.size
  let zs := b.z.size
  if Ext.ble ys xs && Ext.ble zs xs then 0
  else if Ext.ble zs ys then 1 else 2

/-- `Aabb::pad_to_minimums()` (functional form; `DELTA = 0.0001`). -/
def padToMinimums (b : Aabb) : Aabb :=
  let Δ : ℚ := 1 / 10000
  { x := if Ext.blt b.x.size (.fin Δ) then b.x.expand Δ else b.x
    y := if Ext.blt b.y.size (.fin Δ) then b.y.expand Δ else b.y
    z := if Ext.blt b.z.size (.fin Δ) then b.z.expand Δ else b.z }

/-- `Aabb::new_point(a, b)`: componentwise sorted box, then padded. -/
def newPoint (a b : Vec3) : Aabb :=
  padToMinimums
    { x := if a.x ≤ b.x then Interval.mkQ a.x b.x else Interval.mkQ b.x a.x
      y := if a.y ≤ b.y then Interval.mkQ a.y b.y else Interval.mkQ b.y a.y
      z := if a.z ≤ b.z then Interval.mkQ a.z b.z else Interval.mkQ b.z a.z }

/-- `Aabb::merge`. -/
def merge (a b : Aabb) : Aabb :=
  ⟨a.x.merge b.x, a.y.merge b.y, a.z.merge b.z⟩

/-- One axis of the ray/slab test in `Aabb::hit`: skip the axis when
`|dir| < 1e-8`, otherwise clamp the running interval and fail when it
becomes empty (`max <= min`). -/
def slabAxis (ax : Interval) (origC dirC : ℚ) (rt : Interval) : Option Interval :=
  if |dirC| < 1 / 100000000 then some rt
  else
    let adinv := 1 / dirC
    let t0 := (ax.min.subR origC).mulR adinv
    let t1 := (ax.max.subR origC).mulR adinv
    let tmin := if adinv ≥ 0 then t0 else t1
    let tmax := if adinv ≥ 0 then t1 else t0
    let newMin := Ext.emax rt.min tmin
    let newMax := Ext.emin rt.max tmax
    if Ext.ble newMax newMin then none else some ⟨newMin, newMax⟩

/-- `Aabb::hit(ray, ray_t)`: the three-axis slab test. -/
def hit (b : Aabb) (r : Ray) (rt : Interval) : Bool :=
  match slabAxis b.x r.orig.x r.dir.x rt with
  | none => false
  | some rt1 =>
    match slabAxis b.y r.orig.y r.dir.y rt1 with
    | none => false
    | some rt2 =>
      match slabAxis b.z r.orig.z r.dir.z rt2 with
      | none => false
      | some _ => true

end Aabb

/-- `geometry::hittable::HitRecord`.  The `Arc<dyn Material>` field is
modelled by a material identifier (`ℕ`): the claims about geometry only
compare which material a record carries, never call it.  Id `0` stands
for `NoMaterial`, the value `HitRecord::default()` stores. -/
structure HitRecord where
  p : Vec3
  normal : Vec3
  mat : ℕ
  t : ℚ
  u : ℚ
  v : ℚ
  frontFace : Bool
deriving DecidableEq, Repr

/-- `HitRecord::default()`. -/
def HitRecord.dflt : HitRecord := ⟨Vec3.zeros, Vec3.zeros, 0, 0, 0, 0, false⟩

/-- `HitRecord::set_face_normal`. -/
def HitRecord.setFaceNormal (rec : HitRecord) (r : Ray) (outward : Vec3) :
    HitRecord :=
  let ff := decide (r.dir.dot outward < 0)
  { rec with frontFace := ff, normal := if ff then outward else -outward }

/-- The intersectable object graph: one constructor per `Hittable`
implementation in the repository, each carrying exactly the fields of
the corresponding Rust struct (materials as identifiers).  `Sphere`
stores its moving center as a `Ray`, `ConstantMedium` stores
`neg_inv_density` and its phase-function material id. -/
inductive Obj where
  | sphere (center : Ray) (radius : ℚ) (mat : ℕ) (bbox : Aabb)
  | quad (q u v : Vec3) (mat : ℕ) (bbox : Aabb) (normal : Vec3) (d : ℚ)
      (w : Vec3) (area : ℚ)
  | list (objects : List Obj) (bbox : Aabb)
  | bvhNode (left right : Obj) (bbox : Aabb)
  | translate (object : Obj) (offset : Vec3) (bbox : Aabb)
  | rotateY (object : Obj) (sinTheta cosTheta : ℚ) (bbox : Aabb)
  | constantMedium (boundary : Obj) (phase : ℕ) (negInvDensity : ℚ)

/-- `Hittable::bounding_box` for each implementation: every concrete
shape returns its stored box, a `HittableList` returns `None` when
empty, a `ConstantMedium` delegates to its boundary. -/
def Obj.boundingBox : Obj → Option Aabb
  | .sphere _ _ _ bbox => some bbox
  | .quad _ _ _ _ bbox _ _ _ _ => some bbox
  | .list objs bbox => if objs.isEmpty then none else some bbox
  | .bvhNode _ _ bbox => some bbox
  | .translate _ _ bbox => some bbox
  | .rotateY _ _ _ bbox => some bbox
  | .constantMedium boundary _ _ => boundary.boundingBox

/-- `Sphere::new` (static sphere): center stored as a zero-displacement
ray, box from `center ± r`. -/
def Sphere.new (center : Vec3) (radius : ℚ) (mat : ℕ) : Obj :=
  let rvec : Vec3 := ⟨radius, radius, radius⟩
  Obj.sphere ⟨center, Vec3.zeros, 0⟩ radius mat
    (Aabb.newPoint (center - rvec) (center + rvec))

/-- `Quad::new`: precomputes plane data and the merged diagonal boxes. -/
def Quad.new (F : FloatOps) (q u v : Vec3) (mat : ℕ) : Obj :=
  let n := u.cross v
  let normal := n.normalize F
  let d := normal.dot q
  let w := n.divQ (n.dot n)
  let area := n.norm F
  let bbox := (Aabb.newPoint q (q + u + v)).merge (Aabb.newPoint (q + u) (q + v))
  Obj.quad q u v mat bbox normal d w area

/-- One step of `HittableList::add`: extend the object vector and
maintain the accumulated box exactly as the source does. -/
def listAdd : List Obj × Aabb → Obj → List Obj × Aabb
  | (objs, bbox), o =>
    match o.boundingBox with
    | some ob => (objs ++ [o], if objs.isEmpty then ob else bbox.merge ob)
    | none => (objs ++ [o], bbox)

/-- A `HittableList` built by `new()` followed by `add` for each object. -/
def HittableList.ofList (objs : List Obj) : Obj :=
  let s := objs.foldl listAdd ([], Aabb.empty)
  Obj.list s.1 s.2

/-- `Translate::new`. -/
def Translate.new (o : Obj) (offset : Vec3) : Obj :=
  let bbox :=
    match o.boundingBox with
    | some ob =>
      Aabb.mk
        ⟨ob.x.min.addR offset.x, ob.x.max.addR offset.x⟩
        ⟨ob.y.min.addR offset.y, ob.y.max.addR offset.y⟩
        ⟨ob.z.min.addR offset.z, ob.z.max.addR offset.z⟩
    | none => Aabb.empty
  Obj.translate o offset bbox

/-- `ConstantMedium::new` / `new_color`: stores `-1/density` and the
isotropic phase function (as a material id). -/
def ConstantMedium.new (boundary : Obj) (density : ℚ) (phase : ℕ) : Obj :=
  Obj.constantMedium boundary phase (-1 / density)

/-- `RotateY::world_to_local` (same formula for points and vectors). -/
def rotWL (s c : ℚ) (p : Vec3) : Vec3 :=
  ⟨c * p.x - s * p.z, p.y, s * p.x + c * p.z⟩

/-- `RotateY::local_to_world` (same formula for points and vectors). -/
def rotLW (s c : ℚ) (p : Vec3) : Vec3 :=
  ⟨c * p.x + s * p.z, p.y, -s * p.x + c * p.z⟩

/-- `Sphere::get_sphere_uv`. -/
def sphereUV (F : FloatOps) (p : Vec3) : ℚ × ℚ :=
  let theta := F.acos (-p.y)
  let phi := F.atan2 (-p.z) p.x + F.pi
  (phi / (2 * F.pi), theta / F.pi)

mutual

/-- `Hittable::hit` for every implementation in the repository, in
state-passing form: the `&mut HitRecord` argument becomes an input
record, and the result pairs the (possibly updated) record with the
returned `bool`.  Randomness (consumed only by `ConstantMedium`) is
threaded as a stream. -/
def Obj.hit (F : FloatOps) : Obj → Ray → Interval → HitRecord → RNG →
    (HitRecord × Bool) × RNG
  | .sphere center radius mat _, r, rayT, rec, g =>
    let currentCenter := center.at r.time
    let oc := r.orig - currentCenter
    let a := r.dir.normSq
    let halfB := oc.dot r.dir
    let c := oc.normSq - radius * radius
    let discriminant := halfB * halfB - a * c
    if discriminant < 0 then ((rec, false), g)
    else
      let sqrtd := F.sqrt discriminant
      let root1 := (-halfB - sqrtd) / a
      let root := if rayT.surrounds root1 then root1 else (-halfB + sqrtd) / a
      if rayT.surrounds root then
        let p := r.at root
        let outwardNormal := (p - currentCenter).divQ radius
        let uv := sphereUV F outwardNormal
        let rec1 := { rec with t := root, p := p, u := uv.1, v := uv.2 }
        let rec2 := rec1.setFaceNormal r outwardNormal
        (({ rec2 with mat := mat }, true), g)
      else ((rec, false), g)
  | .quad q u v mat _ normal d w _, r, rayT, rec, g =>
    let denom := normal.dot r.dir
    if |denom| < 1 / 100000000 then ((rec, false), g)
    else
      let t := (d - normal.dot r.orig) / denom
      if rayT.contains t then
        let intersection := r.at t
        let planar := intersection - q
        let alpha := w.dot (planar.cross v)
        let beta := w.dot (u.cross planar)
        if 0 ≤ alpha ∧ alpha ≤ 1 ∧ 0 ≤ beta ∧ beta ≤ 1 then
          let rec1 := { rec with
            u := alpha, v := beta, t := t, p := intersection, mat := mat }
          ((rec1.setFaceNormal r normal, true), g)
        else ((rec, false), g)
      else ((rec, false), g)
  | .list objs _, r, rayT, rec, g =>
    hitScan F objs r rayT.min rayT.max HitRecord.dflt false rec g
  | .bvhNode left right bbox, r, rayT, rec, g =>
    if !(bbox.hit r rayT) then ((rec, false), g)
    else
      let s1 := Obj.hit F left r rayT rec g
      let rec1 := s1.1.1
      let hitLeft := s1.1.2
      let rightInterval := if hitLeft then (⟨rayT.min, .fin rec1.t⟩ : Interval)
                           else rayT
      let s2 := Obj.hit F right r rightInterval rec1 s1.2
      ((s2.1.1, hitLeft || s2.1.2), s2.2)
  | .translate obj offset _, r, rayT, rec, g =>
    let offsetR : Ray := ⟨r.orig - offset, r.dir, r.time⟩
    let s1 := Obj.hit F obj offsetR rayT rec g
    if !s1.1.2 then ((s1.1.1, false), s1.2)
    else (({ s1.1.1 with p := s1.1.1.p + offset }, true), s1.2)
  | .rotateY obj sinT cosT _, r, rayT, rec, g =>
    let rotatedR : Ray := ⟨rotWL sinT cosT r.orig, rotWL sinT cosT r.dir, r.time⟩
    let s1 := Obj.hit F obj rotatedR rayT rec g
    if !s1.1.2 then ((s1.1.1, false), s1.2)
    else
      (({ s1.1.1 with
          p := rotLW sinT cosT s1.1.1.p,
          normal := rotLW sinT cosT s1.1.1.normal }, true), s1.2)
  | .constantMedium boundary phase negInvDensity, r, rayT, rec, g =>
    let s1 := Obj.hit F boundary r Interval.univ HitRecord.dflt g
    if !s1.1.2 then ((rec, false), s1.2)
    else
      let rec1 := s1.1.1
      let s2 := Obj.hit F boundary r ⟨.fin (rec1.t + 1 / 10000), .pinf⟩
        HitRecord.dflt s1.2
      if !s2.1.2 then ((rec, false), s2.2)
      else
        let rec2 := s2.1.1
        let t1 := Ext.emax (.fin rec1.t) rayT.min
        let t2 := Ext.emin (.fin rec2.t) rayT.max
        if Ext.ble t2 t1 then ((rec, false), s2.2)
        else
          match t1, t2 with
          | .fin t1q, .fin t2q =>
            let t1c := max t1q 0
            let rayLength := r.dir.norm F
            let distanceInsideBoundary := (t2q - t1c) * rayLength
            let d := (s2.2 : RNG).next
            let hitDistance := negInvDensity * F.log d.1
            if hitDistance > distanceInsideBoundary then ((rec, false), d.2)
            else
              let t := t1c + hitDistance / rayLength
              ((({ rec with
                   t := t, p := r.at t, normal := ⟨1, 0, 0⟩,
                   frontFace := true, mat := phase }), true), d.2)
          | _, _ => ((rec, false), s2.2)

/-- The loop body of `HittableList::hit`: iterate the children keeping
the closest hit, shrinking the interval's upper bound to the best `t`. -/
def hitScan (F : FloatOps) : List Obj → Ray → Ext → Ext → HitRecord → Bool →
    HitRecord → RNG → (HitRecord × Bool) × RNG
  | [], _, _, _, _, anyHit, rec, g => ((rec, anyHit), g)
  | o :: rest, r, tmin, closest, temp, anyHit, rec, g =>
    let s := Obj.hit F o r ⟨tmin, closest⟩ temp g
    if s.1.2 then
      hitScan F rest r tmin (.fin s.1.1.t) s.1.1 true s.1.1 s.2
    else
      hitScan F rest r tmin closest s.1.1 anyHit rec s.2

end

/-- `BvhNode::box_compare`: compare two objects by the minimum of their
bounding boxes along `axis` (`unwrap_or_default` yields the empty box,
`partial_cmp(..).unwrap_or(Equal)` is total on non-NaN doubles). -/
def boxCompare (a b : Obj) (axis : ℕ) : Ordering :=
  let aBox := a.boundingBox.getD Aabb.empty
  let bBox := b.boundingBox.getD Aabb.empty
  Ext.ecmp (aBox.axisInterval axis).min (bBox.axisInterval axis).min

/-- Insert into a sorted list, after all entries that compare `≤`:
the insertion step of a stable insertion sort. -/
def insertLe (le : Obj → Obj → Bool) (a : Obj) : List Obj → List Obj
  | [] => [a]
  | b :: l => if le b a then b :: insertLe le a l else a :: b :: l

/-- Stable sort by a boolean comparison.  Models Rust's stable
`sort_by`: for the total preorders used by the BVH builder, every
stable sort produces the same output list. -/
def sortLe (le : Obj → Obj → Bool) (l : List Obj) : List Obj :=
  l.foldl (fun acc x => insertLe le x acc) []

theorem insertLe_length (le : Obj → Obj → Bool) (a : Obj) (l : List Obj) :
    (insertLe le a l).length = l.length + 1 := by
  induction l with
  | nil => rfl
  | cons b t ih =>
    by_cases h : le b a = true
    · simp [insertLe, h, ih]
    · simp [insertLe, h]

theorem sortLe_length (le : Obj → Obj → Bool) (l : List Obj) :
    (sortLe le l).length = l.length := by
  suffices h : ∀ acc : List Obj,
      (l.foldl (fun acc x => insertLe le x acc) acc).length =
        acc.length + l.length by
    simpa using h []
  induction l with
  | nil => intro acc; simp
  | cons b t ih =>
    intro acc
    rw [List.foldl_cons, ih, insertLe_length, List.length_cons]
    omega

/-- `BvhNode::from_slice`.  The union box of the slice picks the split
axis; one object becomes a leaf with both children equal to it, two are
ordered by `box_compare`, more are stable-sorted by the same key and
split at the middle index.  (On an empty slice the source recurses
forever; that branch returns a junk empty list node and is never used
by any theorem.) -/
def sliceBbox (objs : List Obj) : Aabb :=
  objs.foldl
    (fun b o => match o.boundingBox with
      | some ob => b.merge ob
      | none => b) Aabb.empty

/-- The recursive body of `BvhNode::from_slice` (see `sliceBbox` for the
union box of the slice). -/
def BvhNode.fromSlice (objs : List Obj) : Obj :=
  let bbox := sliceBbox objs
  let axis := bbox.longestAxis
  match h : objs with
  | [] => Obj.list [] Aabb.empty
  | [o] => Obj.bvhNode o o bbox
  | [a, b] =>
    if boxCompare a b axis = .lt then Obj.bvhNode a b bbox
    else Obj.bvhNode b a bbox
  | _ :: _ :: _ :: _ =>
    Obj.bvhNode
      (BvhNode.fromSlice
        ((sortLe (fun x y => boxCompare x y axis ≠ .gt) objs).take
          (objs.length / 2)))
      (BvhNode.fromSlice
        ((sortLe (fun x y => boxCompare x y axis ≠ .gt) objs).drop
          (objs.length / 2)))
      bbox
  termination_by objs.length
  decreasing_by
  · simp [List.length_take, sortLe_length, h]
    omega
  · simp [List.length_drop, sortLe_length, h]
    omega

/-- `BvhNode::new(list)`: build over the list's object vector. -/
def BvhNode.ofObjects (objs : List Obj) : Obj := BvhNode.fromSlice objs

mutual

/-- `Hittable::pdf_value` for every implementation: spheres use the
subtended solid angle, quads the distance/cosine/area formula, lists the
unweighted `1/n` average, BVH nodes the `0.5/0.5` average of their two
children, transforms delegate in local coordinates, and a
`ConstantMedium` inherits the trait default `0.0`. -/
def Obj.pdfValue (F : FloatOps) : Obj → Vec3 → Vec3 → ℚ
  | .sphere center radius mat bbox, origin, direction =>
    let s := Obj.hit F (.sphere center radius mat bbox)
      ⟨origin, direction, 0⟩ ⟨.fin (1 / 1000), .pinf⟩ HitRecord.dflt (RNG.const 0)
    if !s.1.2 then 0
    else
      let currentCenter := center.at 0
      let distSquared := (currentCenter - origin).normSq
      let cosThetaMax := F.sqrt (1 - radius * radius / distSquared)
      let solidAngle := 2 * F.pi * (1 - cosThetaMax)
      1 / solidAngle
  | .quad q u v mat bbox normal d w area, origin, direction =>
    let s := Obj.hit F (.quad q u v mat bbox normal d w area)
      ⟨origin, direction, 0⟩ ⟨.fin (1 / 1000), .pinf⟩ HitRecord.dflt (RNG.const 0)
    if !s.1.2 then 0
    else
      let distanceSquared := s.1.1.t * s.1.1.t * direction.normSq
      let cosine := |direction.dot s.1.1.normal / direction.norm F|
      distanceSquared / (cosine * area)
  | .list objs _, origin, direction =>
    if objs.isEmpty then 0
    else pdfSum F objs origin direction (1 / (objs.length : ℚ))
  | .bvhNode left right _, origin, direction =>
    1 / 2 * (Obj.pdfValue F left origin direction +
      Obj.pdfValue F right origin direction)
  | .translate obj offset _, origin, direction =>
    Obj.pdfValue F obj (origin - offset) direction
  | .rotateY obj sinT cosT _, origin, direction =>
    Obj.pdfValue F obj (rotWL sinT cosT origin) (rotWL sinT cosT direction)
  | .constantMedium _ _ _, _, _ => 0

/-- `Σ weight * obj.pdf_value(..)` over a list's children. -/
def pdfSum (F : FloatOps) : List Obj → Vec3 → Vec3 → ℚ → ℚ
  | [], _, _, _ => 0
  | o :: rest, origin, direction, weight =>
    weight * Obj.pdfValue F o origin direction +
      pdfSum F rest origin direction weight

end

theorem fst_fst_eq {a a' : HitRecord} {b b' : Bool} {c c' : RNG}
    (h : ((a, b), c) = ((a', b'), c')) : a = a' :=
  congrArg (fun s => s.1.1) h

theorem snd_fst_eq {a a' : HitRecord} {b b' : Bool} {c c' : RNG}
    (h : ((a, b), c) = ((a', b'), c')) : b = b' :=
  congrArg (fun s => s.1.2) h

theorem triple_eta_true {A B : Type} {X : (A × Bool) × B} (h : X.1.2 = true) :
    X = ((X.1.1, true), X.2) := by
  rw [← h]

theorem triple_eta_false {A B : Type} {X : (A × Bool) × B}
    (h : X.1.2 = false) : X = ((X.1.1, false), X.2) := by
  rw [← h]

/-- Once `hit_anything` is `true`, the list scan reports `true`. -/
theorem hitScan_true_of_any (F : FloatOps) (objs : List Obj) :
    ∀ r tmin closest temp rec g,
      (hitScan F objs r tmin closest temp true rec g).1.2 = true := by
  induction objs with
  | nil => intro r tmin closest temp rec g; simp [hitScan]
  | cons o rest ih =>
    intro r tmin closest temp rec g
    simp only [hitScan]
    split
    · exact ih ..
    · exact ih ..

mutual

/-- On the `false` path, every `hit` implementation leaves the caller's
record untouched (mutual part for single objects). -/
theorem hitMissFrameAux (F : FloatOps) (o : Obj) (r : Ray) (rayT : Interval)
    (rec : HitRecord) (g : RNG) (rec' : HitRecord) (g' : RNG)
    (h : Obj.hit F o r rayT rec g = ((rec', false), g')) : rec' = rec := by
  cases o with
  | sphere center radius mat bbox =>
    simp only [Obj.hit] at h
    repeat' split at h
    all_goals
      first
      | exact (fst_fst_eq h).symm
      | exact Bool.noConfusion (snd_fst_eq h)
  | quad q u v mat bbox normal d w area =>
    simp only [Obj.hit] at h
    repeat' split at h
    all_goals
      first
      | exact (fst_fst_eq h).symm
      | exact Bool.noConfusion (snd_fst_eq h)
  | list objs bbox =>
    simp only [Obj.hit] at h
    exact hitScanMissFrameAux F objs r rayT.min rayT.max HitRecord.dflt false
      rec g rec' false g' h rfl
  | bvhNode left right bbox =>
    simp only [Obj.hit] at h
    split at h
    · exact (fst_fst_eq h).symm
    · have hor := snd_fst_eq h
      have hl : (Obj.hit F left r rayT rec g).1.2 = false :=
        (Bool.or_eq_false_iff.mp hor).1
      have hr : (Obj.hit F right r
          (if (Obj.hit F left r rayT rec g).1.2 = true then
            (⟨rayT.min, .fin (Obj.hit F left r rayT rec g).1.1.t⟩ : Interval)
          else rayT)
          (Obj.hit F left r rayT rec g).1.1
          (Obj.hit F left r rayT rec g).2).1.2 = false :=
        (Bool.or_eq_false_iff.mp hor).2
      have e2 := hitMissFrameAux F right r
        (if (Obj.hit F left r rayT rec g).1.2 = true then
          (⟨rayT.min, .fin (Obj.hit F left r rayT rec g).1.1.t⟩ : Interval)
        else rayT)
        (Obj.hit F left r rayT rec g).1.1
        (Obj.hit F left r rayT rec g).2 _ _ (by rw [← hr])
      have e1 := hitMissFrameAux F left r rayT rec g _ _ (by rw [← hl])
      rw [← fst_fst_eq h, e2, e1]
  | translate obj offset bbox =>
    simp only [Obj.hit] at h
    split at h
    · have hm : (Obj.hit F obj ⟨r.orig - offset, r.dir, r.time⟩ rayT rec g).1.2
          = false := by
        simp_all
      have e1 := hitMissFrameAux F obj ⟨r.orig - offset, r.dir, r.time⟩ rayT
        rec g _ _ (by rw [← hm])
      rw [← fst_fst_eq h, e1]
    · exact Bool.noConfusion (snd_fst_eq h)
  | rotateY obj sinT cosT bbox =>
    simp only [Obj.hit] at h
    split at h
    · have hm : (Obj.hit F obj
          ⟨rotWL sinT cosT r.orig, rotWL sinT cosT r.dir, r.time⟩
          rayT rec g).1.2 = false := by
        simp_all
      have e1 := hitMissFrameAux F obj
        ⟨rotWL sinT cosT r.orig, rotWL sinT cosT r.dir, r.time⟩ rayT
        rec g _ _ (by rw [← hm])
      rw [← fst_fst_eq h, e1]
    · exact Bool.noConfusion (snd_fst_eq h)
  | constantMedium boundary phase negInvDensity =>
    simp only [Obj.hit] at h
    repeat' split at h
    all_goals
      first
      | exact (fst_fst_eq h).symm
      | exact Bool.noConfusion (snd_fst_eq h)

/-- On an overall-`false` scan, the best-so-far record is returned
untouched (mutual part for the list loop). -/
theorem hitScanMissFrameAux (F : FloatOps) (objs : List Obj) (r : Ray)
    (tmin closest : Ext) (temp : HitRecord) (anyHit : Bool) (rec : HitRecord)
    (g : RNG) (rec' : HitRecord) (res : Bool) (g' : RNG)
    (h : hitScan F objs r tmin closest temp anyHit rec g = ((rec', res), g'))
    (hres : res = false) : rec' = rec := by
  cases objs with
  | nil =>
    simp only [hitScan] at h
    exact (fst_fst_eq h).symm
  | cons o rest =>
    simp only [hitScan] at h
    split at h
    · exfalso
      have := hitScan_true_of_any F rest r tmin
        (.fin (Obj.hit F o r ⟨tmin, closest⟩ temp g).1.1.t)
        (Obj.hit F o r ⟨tmin, closest⟩ temp g).1.1
        (Obj.hit F o r ⟨tmin, closest⟩ temp g).1.1
        (Obj.hit F o r ⟨tmin, closest⟩ temp g).2
      rw [h] at this
      simp [hres] at this
    · exact hitScanMissFrameAux F rest r tmin closest
        (Obj.hit F o r ⟨tmin, closest⟩ temp g).1.1 anyHit rec
        (Obj.hit F o r ⟨tmin, closest⟩ temp g).2 rec' res g' h hres

end

/-- Concrete instantiation of the abstract float helpers, used by the
closed-form evaluations: exact rational square root (`Rat.sqrt`, correct
on perfect squares), a logarithm stand-in that is negative on `(0,1)`,
and a rational value for π. -/
def F0 : FloatOps :=
  ⟨Rat.sqrt, fun _ => -1, fun _ => 0, fun _ => 0, fun _ => 0, fun _ _ => 0,
    355 / 113⟩

/-- A non-default record used to witness the frame property. -/
def recW : HitRecord := ⟨⟨1, 2, 3⟩, ⟨0, 1, 0⟩, 9, 42, 1 / 4, 1 / 8, true⟩

/-- C10: for every intersectable object, every ray, and every query
interval, if `hit` returns `false` then the `HitRecord` passed in by the
caller is returned completely unchanged; BVH traversal depends on this,
since `BvhNode::hit` hands the same record to its left and then its
right child and must keep the left child's hit when the right child
misses. -/
theorem hit_false_leaves_record_unchanged (F : FloatOps) (o : Obj) (r : Ray)
    (rayT : Interval) (rec : HitRecord) (g : RNG) (rec' : HitRecord) (g' : RNG)
    (h : Obj.hit F o r rayT rec g = ((rec', false), g')) : rec' = rec :=
  hitMissFrameAux F o r rayT rec g rec' g' h

/-- Witness for C10: a concrete sphere missed by a concrete ray
(negative discriminant) hands back the caller's record bit for bit. -/
theorem hit_false_leaves_record_unchanged_witness :
    Obj.hit F0 (Sphere.new ⟨5, 0, 0⟩ 3 7) ⟨⟨0, 0, 0⟩, ⟨0, 1, 0⟩, 0⟩
        ⟨.fin (1 / 1000), .pinf⟩ recW (RNG.const (1 / 2)) =
      ((recW, false), RNG.const (1 / 2)) ∧ recW = recW := by
  have heval : Obj.hit F0 (Sphere.new ⟨5, 0, 0⟩ 3 7) ⟨⟨0, 0, 0⟩, ⟨0, 1, 0⟩, 0⟩
      ⟨.fin (1 / 1000), .pinf⟩ recW (RNG.const (1 / 2)) =
        ((recW, false), RNG.const (1 / 2)) := by
    simp [Obj.hit, Sphere.new, Vec3.dot, Vec3.normSq, Ray.at]
    norm_num
  exact ⟨heval,
    hit_false_leaves_record_unchanged F0 _ _ _ _ _ _ _ heval⟩

mutual

/-- Well-formedness used by the amended C5: every `ConstantMedium` in
the object tree was built with a positive density, i.e. stores
`neg_inv_density < 0`. -/
def MediaWF : Obj → Prop
  | .sphere _ _ _ _ => True
  | .quad _ _ _ _ _ _ _ _ _ => True
  | .list objs _ => MediaWFList objs
  | .bvhNode left right _ => MediaWF left ∧ MediaWF right
  | .translate o _ _ => MediaWF o
  | .rotateY o _ _ _ => MediaWF o
  | .constantMedium boundary _ negInvDensity =>
    negInvDensity < 0 ∧ MediaWF boundary

def MediaWFList : List Obj → Prop
  | [] => True
  | o :: rest => MediaWF o ∧ MediaWFList rest

end

mutual

/-- Bounds part of C5, mutual piece for single objects: a reported hit
parameter lies inside the queried interval (for positive-density media
and float-ops with nonnegative `sqrt` and negative `ln` on draws). -/
theorem hitTBoundsAux (F : FloatOps) (Hsq : ∀ q, 0 ≤ F.sqrt q)
    (Hlog : ∀ u, F.log u < 0) (o : Obj) (r : Ray) (rayT : Interval)
    (rec : HitRecord) (g : RNG) (rec' : HitRecord) (g' : RNG)
    (hWF : MediaWF o)
    (h : Obj.hit F o r rayT rec g = ((rec', true), g')) :
    Ext.ble rayT.min (.fin rec'.t) = true ∧
      Ext.ble (.fin rec'.t) rayT.max = true := by
  cases o with
  | sphere center radius mat bbox =>
    simp only [Obj.hit] at h
    repeat' split at h
    all_goals
      first
      | exact Bool.noConfusion (snd_fst_eq h)
      | (rename_i hs
         rw [← fst_fst_eq h]
         exact surrounds_bounds hs)
  | quad q u v mat bbox normal d w area =>
    simp only [Obj.hit] at h
    repeat' split at h
    all_goals
      first
      | exact Bool.noConfusion (snd_fst_eq h)
      | (rename_i hcont hint
         rw [← fst_fst_eq h]
         exact contains_bounds hcont)
  | list objs bbox =>
    simp only [Obj.hit] at h
    simp only [MediaWF] at hWF
    exact hitScanTBoundsAux F Hsq Hlog objs r rayT.min rayT.max rayT.max
      HitRecord.dflt false rec g rec' g' hWF (Ext.ble_refl _)
      (fun hh => Bool.noConfusion hh) h
  | bvhNode left right bbox =>
    simp only [Obj.hit] at h
    simp only [MediaWF] at hWF
    split at h
    · exact Bool.noConfusion (snd_fst_eq h)
    · have hor := snd_fst_eq h
      have hrec' := fst_fst_eq h
      by_cases hR : (Obj.hit F right r
          (if (Obj.hit F left r rayT rec g).1.2 = true then
            (⟨rayT.min, .fin (Obj.hit F left r rayT rec g).1.1.t⟩ : Interval)
          else rayT)
          (Obj.hit F left r rayT rec g).1.1
          (Obj.hit F left r rayT rec g).2).1.2 = true
      · have hRB := hitTBoundsAux F Hsq Hlog right r
          (if (Obj.hit F left r rayT rec g).1.2 = true then
            (⟨rayT.min, .fin (Obj.hit F left r rayT rec g).1.1.t⟩ : Interval)
          else rayT)
          (Obj.hit F left r rayT rec g).1.1
          (Obj.hit F left r rayT rec g).2 _ _ hWF.2 (triple_eta_true hR)
        rw [← hrec']
        by_cases hL : (Obj.hit F left r rayT rec g).1.2 = true
        · have hLB := hitTBoundsAux F Hsq Hlog left r rayT rec g _ _ hWF.1
            (triple_eta_true hL)
          rw [if_pos hL] at hRB ⊢
          exact ⟨hRB.1, Ext.ble_trans hRB.2 hLB.2⟩
        · rw [if_neg hL] at hRB ⊢
          exact hRB
      · have hL : (Obj.hit F left r rayT rec g).1.2 = true := by
          rcases Bool.or_eq_true_iff.mp hor with hl | hr
          · exact hl
          · exact absurd hr hR
        have hLB := hitTBoundsAux F Hsq Hlog left r rayT rec g _ _ hWF.1
          (triple_eta_true hL)
        have hRf : (Obj.hit F right r
            (if (Obj.hit F left r rayT rec g).1.2 = true then
              (⟨rayT.min, .fin (Obj.hit F left r rayT rec g).1.1.t⟩ : Interval)
            else rayT)
            (Obj.hit F left r rayT rec g).1.1
            (Obj.hit F left r rayT rec g).2).1.2 = false :=
          Bool.eq_false_iff.mpr hR
        have hRmiss := hitMissFrameAux F right r
          (if (Obj.hit F left r rayT rec g).1.2 = true then
            (⟨rayT.min, .fin (Obj.hit F left r rayT rec g).1.1.t⟩ : Interval)
          else rayT)
          (Obj.hit F left r rayT rec g).1.1
          (Obj.hit F left r rayT rec g).2 _ _ (triple_eta_false hRf)
        rw [← hrec', hRmiss]
        exact hLB
  | translate obj offset bbox =>
    simp only [Obj.hit] at h
    simp only [MediaWF] at hWF
    split at h
    · exact Bool.noConfusion (snd_fst_eq h)
    · rename_i hns
      simp only [Bool.not_eq_true, Bool.not_eq_false'] at hns
      have hB := hitTBoundsAux F Hsq Hlog obj ⟨r.orig - offset, r.dir, r.time⟩
        rayT rec g _ _ hWF (triple_eta_true hns)
      rw [← fst_fst_eq h]
      exact hB
  | rotateY obj sinT cosT bbox =>
    simp only [Obj.hit] at h
    simp only [MediaWF] at hWF
    split at h
    · exact Bool.noConfusion (snd_fst_eq h)
    · rename_i hns
      simp only [Bool.not_eq_true, Bool.not_eq_false'] at hns
      have hB := hitTBoundsAux F Hsq Hlog obj
        ⟨rotWL sinT cosT r.orig, rotWL sinT cosT r.dir, r.time⟩
        rayT rec g _ _ hWF (triple_eta_true hns)
      rw [← fst_fst_eq h]
      exact hB
  | constantMedium boundary phase negInvDensity =>
    simp only [Obj.hit] at h
    simp only [MediaWF] at hWF
    split at h
    · exact Bool.noConfusion (snd_fst_eq h)
    · split at h
      · exact Bool.noConfusion (snd_fst_eq h)
      · split at h
        · exact Bool.noConfusion (snd_fst_eq h)
        · split at h
          · rename_i t1q t2q heq1 heq2
            split at h
            · exact Bool.noConfusion (snd_fst_eq h)
            · rename_i hgt
              have hble1 := Ext.ble_of_emax_fin heq1
              have hble2 := Ext.ble_of_emin_fin heq2
              have hdd := not_lt.mp hgt
              have hdpos : (0 : ℚ) < negInvDensity *
                  F.log (RNG.next (Obj.hit F boundary r
                    ⟨.fin ((Obj.hit F boundary r Interval.univ HitRecord.dflt
                      g).1.1.t + 1 / 10000), .pinf⟩ HitRecord.dflt
                    (Obj.hit F boundary r Interval.univ HitRecord.dflt
                      g).2).2).1 :=
                mul_pos_of_neg_of_neg hWF.1 (Hlog _)
              have hlen : (0 : ℚ) ≤ Vec3.norm F r.dir := Hsq _
              have hlenpos : (0 : ℚ) < Vec3.norm F r.dir := by
                rcases lt_or_eq_of_le hlen with hp | hz
                · exact hp
                · rw [← hz, mul_zero] at hdd
                  linarith
              have hdivpos : (0 : ℚ) ≤ (negInvDensity *
                  F.log (RNG.next (Obj.hit F boundary r
                    ⟨.fin ((Obj.hit F boundary r Interval.univ HitRecord.dflt
                      g).1.1.t + 1 / 10000), .pinf⟩ HitRecord.dflt
                    (Obj.hit F boundary r Interval.univ HitRecord.dflt
                      g).2).2).1) / Vec3.norm F r.dir :=
                div_nonneg (le_of_lt hdpos) hlen
              have hdivle := (div_le_iff hlenpos).mpr hdd
              rw [← fst_fst_eq h]
              dsimp only
              constructor
              · exact Ext.ble_fin_mono hble1
                  (by linarith [le_max_left t1q 0])
              · exact Ext.fin_ble_mono hble2 (by linarith)
          · exact Bool.noConfusion (snd_fst_eq h)

/-- Bounds part of C5, mutual piece for the list scan. -/
theorem hitScanTBoundsAux (F : FloatOps) (Hsq : ∀ q, 0 ≤ F.sqrt q)
    (Hlog : ∀ u, F.log u < 0) (objs : List Obj) (r : Ray)
    (tmin M closest : Ext) (temp : HitRecord) (anyHit : Bool)
    (rec : HitRecord) (g : RNG) (rec' : HitRecord) (g' : RNG)
    (hWF : MediaWFList objs)
    (hclosest : Ext.ble closest M = true)
    (hrec : anyHit = true →
      Ext.ble tmin (.fin rec.t) = true ∧ Ext.ble (.fin rec.t) M = true)
    (h : hitScan F objs r tmin closest temp anyHit rec g = ((rec', true), g')) :
    Ext.ble tmin (.fin rec'.t) = true ∧ Ext.ble (.fin rec'.t) M = true := by
  cases objs with
  | nil =>
    simp only [hitScan] at h
    rw [← fst_fst_eq h]
    exact hrec (snd_fst_eq h)
  | cons o rest =>
    simp only [hitScan] at h
    simp only [MediaWFList] at hWF
    split at h
    · rename_i hchild
      have hCB := hitTBoundsAux F Hsq Hlog o r ⟨tmin, closest⟩ temp g _ _
        hWF.1 (triple_eta_true hchild)
      exact hitScanTBoundsAux F Hsq Hlog rest r tmin M
        (.fin (Obj.hit F o r ⟨tmin, closest⟩ temp g).1.1.t)
        (Obj.hit F o r ⟨tmin, closest⟩ temp g).1.1 true
        (Obj.hit F o r ⟨tmin, closest⟩ temp g).1.1
        (Obj.hit F o r ⟨tmin, closest⟩ temp g).2 rec' g' hWF.2
        (Ext.ble_trans hCB.2 hclosest)
        (fun _ => ⟨hCB.1, Ext.ble_trans hCB.2 hclosest⟩) h
    · exact hitScanTBoundsAux F Hsq Hlog rest r tmin M closest
        (Obj.hit F o r ⟨tmin, closest⟩ temp g).1.1 anyHit rec
        (Obj.hit F o r ⟨tmin, closest⟩ temp g).2 rec' g' hWF.2 hclosest hrec h

end

/-- Like `F0` but with the log stand-in fixed at `-10`, matching a draw
`U = e^(-10)` of the exponential free-path sampler. -/
def FnL : FloatOps :=
  ⟨Rat.sqrt, fun _ => -10, fun _ => 0, fun _ => 0, fun _ => 0, fun _ _ => 0,
    355 / 113⟩

/-- A `ConstantMedium` built with *negative* density `-1` (the public
constructor accepts it): `neg_inv_density = 1`. -/
def cmNeg : Obj := ConstantMedium.new (Sphere.new ⟨5, 0, 0⟩ 3 7) (-1) 8

/-- The same boundary with the legitimate density `1`. -/
def cmPos : Obj := ConstantMedium.new (Sphere.new ⟨5, 0, 0⟩ 3 7) 1 8

/-- The probe ray used by the medium evaluations. -/
def cRay : Ray := ⟨⟨0, 0, 0⟩, ⟨1, 0, 0⟩, 0⟩

/-- C5 (amended): for every intersectable object all of whose
`ConstantMedium` members carry a positive density (the stored
`neg_inv_density` is negative), and for float-op models whose `sqrt` is
nonnegative and whose `ln` is negative on the sampler's draws (as the
real functions are on `[0,1)`), a `hit` that returns `true` reports a
parameter `t` with `t_min <= t <= t_max`.  The positivity proviso is
necessary: see the counterexample with a negative-density medium. -/
theorem hit_t_within_query_interval (F : FloatOps) (o : Obj) (r : Ray)
    (rayT : Interval) (rec : HitRecord) (g : RNG) (rec' : HitRecord)
    (g' : RNG) (hWF : MediaWF o) (Hsq : ∀ q, 0 ≤ F.sqrt q)
    (Hlog : ∀ u, F.log u < 0)
    (h : Obj.hit F o r rayT rec g = ((rec', true), g')) :
    Ext.ble rayT.min (.fin rec'.t) = true ∧
      Ext.ble (.fin rec'.t) rayT.max = true :=
  hitTBoundsAux F Hsq Hlog o r rayT rec g rec' g' hWF h

/-- Counterexample to C5 as frozen: a `ConstantMedium` constructed with
density `-1` (`neg_inv_density = 1`) reports a hit at `t = -7` for a
query interval `[3, 100]` — the claim's `t_min <= t <= t_max` fails on
it. -/
theorem medium_negative_density_escapes_interval :
    (Obj.hit FnL cmNeg cRay (Interval.mkQ 3 100) HitRecord.dflt
        (RNG.const (1 / 2))).1.2 = true ∧
    (Obj.hit FnL cmNeg cRay (Interval.mkQ 3 100) HitRecord.dflt
        (RNG.const (1 / 2))).1.1.t = -7 ∧
    (Interval.mkQ 3 100).contains
      (Obj.hit FnL cmNeg cRay (Interval.mkQ 3 100) HitRecord.dflt
        (RNG.const (1 / 2))).1.1.t = false := by
  have heval : Obj.hit FnL cmNeg cRay (Interval.mkQ 3 100) HitRecord.dflt
      (RNG.const (1 / 2)) =
      ((⟨⟨-7, 0, 0⟩, ⟨1, 0, 0⟩, 8, -7, 0, 0, true⟩, true), RNG.const (1 / 2)) := by
    simp [Obj.hit, cmNeg, cRay, ConstantMedium.new, Sphere.new, FnL,
      Interval.univ, Interval.mkQ, Interval.surrounds, Interval.contains,
      Ext.blt, Ext.ble, Ext.emax, Ext.emin, Vec3.dot, Vec3.normSq, Vec3.norm,
      Vec3.divQ, Ray.at, sphereUV, HitRecord.setFaceNormal, HitRecord.dflt,
      RNG.next, Rat.sqrt]
    norm_num
    rfl
  rw [heval]
  simp [Interval.contains, Interval.mkQ, Ext.ble]
  norm_num

/-- Witness for the amended C5: a positive-density medium on the same
boundary reports `t = 4`, inside the queried `[3, 100]`. -/
theorem hit_t_within_query_interval_witness :
    Obj.hit F0 cmPos cRay (Interval.mkQ 3 100) HitRecord.dflt
        (RNG.const (1 / 2)) =
      ((⟨⟨4, 0, 0⟩, ⟨1, 0, 0⟩, 8, 4, 0, 0, true⟩, true), RNG.const (1 / 2)) ∧
    (Ext.ble (Interval.mkQ 3 100).min
        (.fin (⟨⟨4, 0, 0⟩, ⟨1, 0, 0⟩, 8, 4, 0, 0, true⟩ : HitRecord).t) = true ∧
      Ext.ble (.fin (⟨⟨4, 0, 0⟩, ⟨1, 0, 0⟩, 8, 4, 0, 0, true⟩ : HitRecord).t)
        (Interval.mkQ 3 100).max = true) := by
  have heval : Obj.hit F0 cmPos cRay (Interval.mkQ 3 100) HitRecord.dflt
      (RNG.const (1 / 2)) =
      ((⟨⟨4, 0, 0⟩, ⟨1, 0, 0⟩, 8, 4, 0, 0, true⟩, true), RNG.const (1 / 2)) := by
    simp [Obj.hit, cmPos, cRay, ConstantMedium.new, Sphere.new, F0,
      Interval.univ, Interval.mkQ, Interval.surrounds, Interval.contains,
      Ext.blt, Ext.ble, Ext.emax, Ext.emin, Vec3.dot, Vec3.normSq, Vec3.norm,
      Vec3.divQ, Ray.at, sphereUV, HitRecord.setFaceNormal, HitRecord.dflt,
      RNG.next, Rat.sqrt]
    norm_num
    rfl
  have hWF : MediaWF cmPos := by
    simp [cmPos, ConstantMedium.new, Sphere.new, MediaWF]
  exact ⟨heval,
    hit_t_within_query_interval F0 cmPos cRay (Interval.mkQ 3 100)
      HitRecord.dflt (RNG.const (1 / 2)) _ _ hWF
      (fun q => Rat.sqrt_nonneg q) (fun u => by norm_num [F0]) heval⟩

/-- C6: behaviour of `ConstantMedium::hit` for positive density
(`neg_inv_density < 0`), after the boundary entry/exit parameters have
been found and clipped to the query interval (hypotheses `h1`, `h2`,
`ht1`, `ht2`, `hpass`): when the sampled free-path distance
`neg_inv_density * ln U` exceeds the in-boundary segment length the call
returns `false` (and the record is untouched); otherwise it returns a
hit whose parameter lies between the clipped entry and exit parameters,
with the stored phase function as the record's material and the fixed
don't-care normal `(1,0,0)`. -/
theorem constant_medium_free_path (F : FloatOps) (boundary : Obj) (phase : ℕ)
    (nid : ℚ) (r : Ray) (rayT : Interval) (rec : HitRecord) (g : RNG)
    (rec1 rec2 : HitRecord) (g1 g2 : RNG) (t1q t2q : ℚ)
    (hnid : nid < 0)
    (h1 : Obj.hit F boundary r Interval.univ HitRecord.dflt g =
      ((rec1, true), g1))
    (h2 : Obj.hit F boundary r ⟨.fin (rec1.t + 1 / 10000), .pinf⟩
      HitRecord.dflt g1 = ((rec2, true), g2))
    (ht1 : Ext.emax (.fin rec1.t) rayT.min = .fin t1q)
    (ht2 : Ext.emin (.fin rec2.t) rayT.max = .fin t2q)
    (hpass : Ext.ble (.fin t2q) (.fin t1q) = false)
    (Hlog : F.log (RNG.next g2).1 < 0)
    (Hsq : 0 ≤ Vec3.norm F r.dir) :
    (nid * F.log (RNG.next g2).1 > (t2q - max t1q 0) * Vec3.norm F r.dir →
      Obj.hit F (.constantMedium boundary phase nid) r rayT rec g =
        ((rec, false), (RNG.next g2).2)) ∧
    (nid * F.log (RNG.next g2).1 ≤ (t2q - max t1q 0) * Vec3.norm F r.dir →
      Obj.hit F (.constantMedium boundary phase nid) r rayT rec g =
        (({ rec with
            t := max t1q 0 + nid * F.log (RNG.next g2).1 / Vec3.norm F r.dir,
            p := r.at
              (max t1q 0 + nid * F.log (RNG.next g2).1 / Vec3.norm F r.dir),
            normal := ⟨1, 0, 0⟩, frontFace := true, mat := phase }, true),
          (RNG.next g2).2) ∧
      t1q ≤ max t1q 0 + nid * F.log (RNG.next g2).1 / Vec3.norm F r.dir ∧
      max t1q 0 + nid * F.log (RNG.next g2).1 / Vec3.norm F r.dir ≤ t2q) := by
  have hdpos : 0 < nid * F.log (RNG.next g2).1 :=
    mul_pos_of_neg_of_neg hnid Hlog
  constructor
  · intro hcase
    simp only [Obj.hit]
    rw [h1]
    simp only [Bool.not_true]
    rw [h2]
    simp only [Bool.not_true]
    rw [ht1, ht2, hpass]
    simp only [Bool.false_eq_true, if_false, if_pos hcase]
  · intro hcase
    have hlenpos : (0 : ℚ) < Vec3.norm F r.dir := by
      rcases lt_or_eq_of_le Hsq with hp | hz
      · exact hp
      · rw [← hz, mul_zero] at hcase
        linarith
    refine ⟨?_, ?_, ?_⟩
    · simp only [Obj.hit]
      rw [h1]
      simp only [Bool.not_true]
      rw [h2]
      simp only [Bool.not_true]
      rw [ht1, ht2, hpass]
      simp only [Bool.false_eq_true, if_false, if_neg (not_lt.mpr hcase)]
    · have := div_nonneg (le_of_lt hdpos) Hsq
      linarith [le_max_left t1q 0]
    · have hdivle := (div_le_iff hlenpos).mpr hcase
      linarith

/-- Witness for C6: the concrete sphere-bounded medium of density `1`,
probed along the x axis over `[3, 100]`; entry/exit clip to `3`/`8`, the
sampled distance `1` is below the segment length `5`, and the reported
parameter `4` lies between them. -/
theorem constant_medium_free_path_witness :
    (3 : ℚ) ≤ max 3 0 +
      (-1 : ℚ) * F0.log (RNG.next (RNG.const (1 / 2))).1 / Vec3.norm F0 cRay.dir ∧
    max 3 0 +
      (-1 : ℚ) * F0.log (RNG.next (RNG.const (1 / 2))).1 / Vec3.norm F0 cRay.dir
      ≤ 8 := by
  have h1 : Obj.hit F0 (Sphere.new ⟨5, 0, 0⟩ 3 7) cRay Interval.univ
      HitRecord.dflt (RNG.const (1 / 2)) =
      ((⟨⟨2, 0, 0⟩, ⟨-1, 0, 0⟩, 7, 2, 1 / 2, 0, true⟩, true),
        RNG.const (1 / 2)) := by
    simp [Obj.hit, Sphere.new, F0, Interval.univ, Interval.surrounds,
      Ext.blt, Vec3.dot, Vec3.normSq, Vec3.divQ, Ray.at, cRay, sphereUV,
      HitRecord.setFaceNormal, HitRecord.dflt, Rat.sqrt]
    norm_num
  have h2 : Obj.hit F0 (Sphere.new ⟨5, 0, 0⟩ 3 7) cRay
      ⟨.fin ((⟨⟨2, 0, 0⟩, ⟨-1, 0, 0⟩, 7, 2, 1 / 2, 0, true⟩ :
        HitRecord).t + 1 / 10000), .pinf⟩
      HitRecord.dflt (RNG.const (1 / 2)) =
      ((⟨⟨8, 0, 0⟩, ⟨-1, 0, 0⟩, 7, 8, 1 / 2, 0, false⟩, true),
        RNG.const (1 / 2)) := by
    simp [Obj.hit, Sphere.new, F0, Interval.surrounds,
      Ext.blt, Vec3.dot, Vec3.normSq, Vec3.divQ, Ray.at, cRay, sphereUV,
      HitRecord.setFaceNormal, HitRecord.dflt, Rat.sqrt]
    norm_num
  have H := constant_medium_free_path F0 (Sphere.new ⟨5, 0, 0⟩ 3 7) 8 (-1)
    cRay (Interval.mkQ 3 100) HitRecord.dflt (RNG.const (1 / 2))
    ⟨⟨2, 0, 0⟩, ⟨-1, 0, 0⟩, 7, 2, 1 / 2, 0, true⟩
    ⟨⟨8, 0, 0⟩, ⟨-1, 0, 0⟩, 7, 8, 1 / 2, 0, false⟩
    (RNG.const (1 / 2)) (RNG.const (1 / 2)) 3 8
    (by norm_num) h1 h2
    (by simp [Interval.mkQ, Ext.emax] <;> norm_num)
    (by simp [Interval.mkQ, Ext.emin] <;> norm_num)
    (by simp [Ext.ble] <;> norm_num)
    (by norm_num [F0])
    (by simp [Vec3.norm, Vec3.normSq, Vec3.dot, cRay, F0, Rat.sqrt])
  have hcase : (-1 : ℚ) * F0.log (RNG.next (RNG.const (1 / 2))).1 ≤
      ((8 : ℚ) - max 3 0) * Vec3.norm F0 cRay.dir := by
    norm_num [F0, Vec3.norm, Vec3.normSq, Vec3.dot, cRay, Rat.sqrt]
  exact ⟨(H.2 hcase).2.1, (H.2 hcase).2.2⟩

theorem mem_insertLe {le : Obj → Obj → Bool} {a x : Obj} {l : List Obj}
    (h : a ∈ insertLe le x l) : a = x ∨ a ∈ l := by
  induction l with
  | nil =>
    simp only [insertLe, List.mem_singleton] at h
    exact Or.inl h
  | cons b t ih =>
    by_cases hb : le b x = true
    · simp [insertLe, hb] at h
      rcases h with h | h
      · exact Or.inr (List.mem_cons.mpr (Or.inl h))
      · rcases ih h with h' | h'
        · exact Or.inl h'
        · exact Or.inr (List.mem_cons.mpr (Or.inr h'))
    · simp [insertLe, hb] at h
      rcases h with h | h | h
      · exact Or.inl h
      · exact Or.inr (List.mem_cons.mpr (Or.inl h))
      · exact Or.inr (List.mem_cons.mpr (Or.inr h))

theorem foldl_insert_mem {le : Obj → Obj → Bool} {a : Obj} :
    ∀ (l acc : List Obj),
      a ∈ l.foldl (fun acc x => insertLe le x acc) acc → a ∈ acc ∨ a ∈ l := by
  intro l
  induction l with
  | nil => intro acc hh; exact Or.inl hh
  | cons b t ih =>
    intro acc hh
    rcases ih (insertLe le b acc) hh with h' | h'
    · rcases mem_insertLe h' with h'' | h''
      · exact Or.inr (List.mem_cons.mpr (Or.inl h''))
      · exact Or.inl h''
    · exact Or.inr (List.mem_cons.mpr (Or.inr h'))

theorem mem_sortLe {le : Obj → Obj → Bool} {a : Obj} {l : List Obj}
    (h : a ∈ sortLe le l) : a ∈ l := by
  rcases foldl_insert_mem l [] h with h' | h'
  · exact absurd h' (List.not_mem_nil a)
  · exact h'

/-- Where a BVH node's reported hit record comes from: one of its two
children produced it, on a query whose lower bound is the node's. -/
theorem bvh_node_hit_origin (F : FloatOps) (left right : Obj) (bbox : Aabb)
    (r : Ray) (rayT : Interval) (rec : HitRecord) (g : RNG)
    (rec' : HitRecord) (g' : RNG)
    (h : Obj.hit F (.bvhNode left right bbox) r rayT rec g =
      ((rec', true), g')) :
    (∃ I rec0 g0 g1, Interval.min I = rayT.min ∧
      Obj.hit F left r I rec0 g0 = ((rec', true), g1)) ∨
    (∃ I rec0 g0 g1, Interval.min I = rayT.min ∧
      Obj.hit F right r I rec0 g0 = ((rec', true), g1)) := by
  simp only [Obj.hit] at h
  split at h
  · exact Bool.noConfusion (snd_fst_eq h)
  · have hor := snd_fst_eq h
    have hrec' := fst_fst_eq h
    by_cases hR : (Obj.hit F right r
        (if (Obj.hit F left r rayT rec g).1.2 = true then
          (⟨rayT.min, .fin (Obj.hit F left r rayT rec g).1.1.t⟩ : Interval)
        else rayT)
        (Obj.hit F left r rayT rec g).1.1
        (Obj.hit F left r rayT rec g).2).1.2 = true
    · refine Or.inr ⟨(if (Obj.hit F left r rayT rec g).1.2 = true then
          (⟨rayT.min, .fin (Obj.hit F left r rayT rec g).1.1.t⟩ : Interval)
        else rayT), (Obj.hit F left r rayT rec g).1.1,
        (Obj.hit F left r rayT rec g).2,
        (Obj.hit F right r
          (if (Obj.hit F left r rayT rec g).1.2 = true then
            (⟨rayT.min, .fin (Obj.hit F left r rayT rec g).1.1.t⟩ : Interval)
          else rayT)
          (Obj.hit F left r rayT rec g).1.1
          (Obj.hit F left r rayT rec g).2).2, ?_, ?_⟩
      · split <;> rfl
      · rw [← hrec']
        exact triple_eta_true hR
    · have hL : (Obj.hit F left r rayT rec g).1.2 = true := by
        rcases Bool.or_eq_true_iff.mp hor with hl | hr
        · exact hl
        · exact absurd hr hR
      have hRmiss := hitMissFrameAux F right r
        (if (Obj.hit F left r rayT rec g).1.2 = true then
          (⟨rayT.min, .fin (Obj.hit F left r rayT rec g).1.1.t⟩ : Interval)
        else rayT)
        (Obj.hit F left r rayT rec g).1.1
        (Obj.hit F left r rayT rec g).2 _ _
        (triple_eta_false (Bool.eq_false_iff.mpr hR))
      refine Or.inl ⟨rayT, rec, g, (Obj.hit F left r rayT rec g).2, rfl, ?_⟩
      rw [← hrec', hRmiss]
      exact triple_eta_true hL

theorem bvh_hit_comes_from_member (F : FloatOps) :
    ∀ (objs : List Obj) (r : Ray) (rayT : Interval) (rec : HitRecord)
      (g : RNG) (rec' : HitRecord) (g' : RNG),
      Obj.hit F (BvhNode.fromSlice objs) r rayT rec g = ((rec', true), g') →
      ∃ o, o ∈ objs ∧ ∃ I rec0 g0 g1, Interval.min I = rayT.min ∧
        Obj.hit F o r I rec0 g0 = ((rec', true), g1) := by
  intro objs
  induction objs using BvhNode.fromSlice.induct with
  | case1 =>
    intro r rayT rec g rec' g' h
    simp only [BvhNode.fromSlice] at h
    simp only [Obj.hit, hitScan] at h
    exact Bool.noConfusion (snd_fst_eq h)
  | case2 o =>
    intro r rayT rec g rec' g' h
    simp only [BvhNode.fromSlice] at h
    rcases bvh_node_hit_origin F o o _ r rayT rec g rec' g' h with
      ⟨I, rec0, g0, g1, hmin, he⟩ | ⟨I, rec0, g0, g1, hmin, he⟩ <;>
      exact ⟨o, List.mem_singleton_self o, I, rec0, g0, g1, hmin, he⟩
  | case3 a b bb ax hcmp =>
    intro r rayT rec g rec' g' h
    simp only [BvhNode.fromSlice] at h
    rw [if_pos hcmp] at h
    rcases bvh_node_hit_origin F a b _ r rayT rec g rec' g' h with
      ⟨I, rec0, g0, g1, hmin, he⟩ | ⟨I, rec0, g0, g1, hmin, he⟩
    · exact ⟨a, by simp, I, rec0, g0, g1, hmin, he⟩
    · exact ⟨b, by simp, I, rec0, g0, g1, hmin, he⟩
  | case4 a b bb ax hcmp =>
    intro r rayT rec g rec' g' h
    simp only [BvhNode.fromSlice] at h
    rw [if_neg hcmp] at h
    rcases bvh_node_hit_origin F b a _ r rayT rec g rec' g' h with
      ⟨I, rec0, g0, g1, hmin, he⟩ | ⟨I, rec0, g0, g1, hmin, he⟩
    · exact ⟨b, by simp, I, rec0, g0, g1, hmin, he⟩
    · exact ⟨a, by simp, I, rec0, g0, g1, hmin, he⟩
  | case5 o1 o2 o3 t bb ax ih1 ih2 =>
    intro r rayT rec g rec' g' h
    simp only [BvhNode.fromSlice] at h
    rcases bvh_node_hit_origin F _ _ _ r rayT rec g rec' g' h with
      ⟨I, rec0, g0, g1, hmin, he⟩ | ⟨I, rec0, g0, g1, hmin, he⟩
    · rcases ih1 r I rec0 g0 rec' g1 he with
        ⟨o, hmem, I', rec0', g0', g1', hmin', he'⟩
      exact ⟨o, mem_sortLe (List.take_subset _ _ hmem), I', rec0', g0', g1',
        by rw [hmin', hmin], he'⟩
    · rcases ih2 r I rec0 g0 rec' g1 he with
        ⟨o, hmem, I', rec0', g0', g1', hmin', he'⟩
      exact ⟨o, mem_sortLe (List.drop_subset _ _ hmem), I', rec0', g0', g1',
        by rw [hmin', hmin], he'⟩

/-- Two geometrically identical unit quads with different materials. -/
def q2a : Obj := Quad.new F0 ⟨0, 0, 0⟩ ⟨1, 0, 0⟩ ⟨0, 1, 0⟩ 1

/-- Same quad as `q2a` but carrying material id 2. -/
def q2b : Obj := Quad.new F0 ⟨0, 0, 0⟩ ⟨1, 0, 0⟩ ⟨0, 1, 0⟩ 2

/-- The padded bounding box both quads produce. -/
def tieBox : Aabb :=
  ⟨⟨.fin 0, .fin 1⟩, ⟨.fin 0, .fin 1⟩,
    ⟨.fin (-(1 / 20000)), .fin (1 / 20000)⟩⟩

/-- The quads of the tie scene in fully evaluated (field-literal) form. -/
def quadTie (m : ℕ) : Obj :=
  Obj.quad ⟨0, 0, 0⟩ ⟨1, 0, 0⟩ ⟨0, 1, 0⟩ m tieBox ⟨0, 0, 1⟩ 0 ⟨0, 0, 1⟩ 1

/-- A ray hitting both tie quads head-on at `t = 1`. -/
def tieRay : Ray := ⟨⟨1 / 2, 1 / 2, 1⟩, ⟨0, 0, -1⟩, 0⟩

/-- The hit record both tie quads produce, up to the material id. -/
def tieRec (m : ℕ) : HitRecord :=
  ⟨⟨1 / 2, 1 / 2, 0⟩, ⟨0, 0, 1⟩, m, 1, 1 / 2, 1 / 2, true⟩

theorem q2a_eval : q2a = quadTie 1 := by
  simp [q2a, quadTie, Quad.new, Vec3.cross, Vec3.dot, Vec3.norm,
    Vec3.normSq, Vec3.normalize, Vec3.divQ, Rat.sqrt, F0, Aabb.newPoint,
    Aabb.padToMinimums, Interval.expand, Ext.subR, Ext.addR, Interval.mkQ,
    Aabb.merge, Interval.merge, Ext.emin, Ext.emax, tieBox, Interval.size,
    Ext.esub, Ext.blt]
  norm_num

theorem q2b_eval : q2b = quadTie 2 := by
  simp [q2b, quadTie, Quad.new, Vec3.cross, Vec3.dot, Vec3.norm,
    Vec3.normSq, Vec3.normalize, Vec3.divQ, Rat.sqrt, F0, Aabb.newPoint,
    Aabb.padToMinimums, Interval.expand, Ext.subR, Ext.addR, Interval.mkQ,
    Aabb.merge, Interval.merge, Ext.emin, Ext.emax, tieBox, Interval.size,
    Ext.esub, Ext.blt]
  norm_num

set_option maxHeartbeats 2000000 in
theorem tie_bvh_build :
    BvhNode.ofObjects [q2a, q2b] = Obj.bvhNode (quadTie 2) (quadTie 1) tieBox := by
  rw [q2a_eval, q2b_eval]
  simp [BvhNode.ofObjects, BvhNode.fromSlice, sliceBbox, boxCompare, Ext.ecmp,
    Aabb.longestAxis, Interval.size, Ext.esub, Aabb.merge, Interval.merge,
    Ext.emin, Ext.emax, Obj.boundingBox, quadTie, tieBox,
    Ext.ble, Ext.blt, Aabb.empty, Interval.empty, Aabb.axisInterval]
  norm_num

set_option maxHeartbeats 2000000 in
theorem tie_flat_build :
    HittableList.ofList [q2a, q2b] = Obj.list [quadTie 1, quadTie 2] tieBox := by
  rw [q2a_eval, q2b_eval]
  simp [HittableList.ofList, listAdd, Obj.boundingBox, quadTie, tieBox,
    Aabb.merge, Interval.merge, Ext.emin, Ext.emax]

set_option maxHeartbeats 2000000 in
theorem tie_bvh_hit :
    Obj.hit F0 (BvhNode.ofObjects [q2a, q2b]) tieRay ⟨.fin (1 / 1000), .pinf⟩
      HitRecord.dflt (RNG.const (1 / 2)) =
    ((tieRec 1, true), RNG.const (1 / 2)) := by
  rw [tie_bvh_build]
  simp [Obj.hit, quadTie, tieBox, tieRay, tieRec, Aabb.hit, Aabb.slabAxis,
    Ext.mulR, Ext.subR, Ext.ble, Ext.blt, Ext.emin, Ext.emax,
    Interval.contains, Ray.at, Vec3.dot, Vec3.cross, HitRecord.setFaceNormal,
    HitRecord.dflt, F0, Aabb.axisInterval]
  norm_num

set_option maxHeartbeats 2000000 in
theorem tie_flat_hit :
    Obj.hit F0 (HittableList.ofList [q2a, q2b]) tieRay ⟨.fin (1 / 1000), .pinf⟩
      HitRecord.dflt (RNG.const (1 / 2)) =
    ((tieRec 2, true), RNG.const (1 / 2)) := by
  rw [tie_flat_build]
  simp [Obj.hit, hitScan, quadTie, tieBox, tieRay, tieRec, Ext.ble, Ext.blt,
    Interval.contains, Ray.at, Vec3.dot, Vec3.cross, HitRecord.setFaceNormal,
    HitRecord.dflt, F0]
  norm_num

/-- Counterexample to C2 as frozen: a list of two identical quads with
different materials, hit head-on at the same `t = 1`.  The flat list
keeps the later child's record (material 2); the two-object BVH builder
swaps the children (`box_compare` ties are not `Less`), so traversal
ends with the other quad's record (material 1).  Both report a hit at
the same `t`, but the records differ. -/
theorem bvh_and_flat_list_disagree_on_tie :
    (Obj.hit F0 (BvhNode.ofObjects [q2a, q2b]) tieRay ⟨.fin (1 / 1000), .pinf⟩
      HitRecord.dflt (RNG.const (1 / 2))).1.2 = true ∧
    (Obj.hit F0 (HittableList.ofList [q2a, q2b]) tieRay
      ⟨.fin (1 / 1000), .pinf⟩ HitRecord.dflt (RNG.const (1 / 2))).1.2 = true ∧
    (Obj.hit F0 (BvhNode.ofObjects [q2a, q2b]) tieRay ⟨.fin (1 / 1000), .pinf⟩
        HitRecord.dflt (RNG.const (1 / 2))).1.1 ≠
      (Obj.hit F0 (HittableList.ofList [q2a, q2b]) tieRay
        ⟨.fin (1 / 1000), .pinf⟩ HitRecord.dflt (RNG.const (1 / 2))).1.1 := by
  rw [tie_bvh_hit, tie_flat_hit]
  refine ⟨rfl, rfl, ?_⟩
  simp [tieRec]

/-- C2 (amended): any hit the BVH built over a list reports was produced
by one of the list's objects, queried on an interval with the same lower
bound.  Full equivalence with the flat scan fails: record equality
breaks on equal-`t` ties (see the counterexample), and hit/miss parity
can break when a hit lies exactly on a node box's slab boundary. -/
theorem bvh_hit_reports_member_object_hit (F : FloatOps) (objs : List Obj)
    (r : Ray) (rayT : Interval) (rec : HitRecord) (g : RNG)
    (rec' : HitRecord) (g' : RNG)
    (h : Obj.hit F (BvhNode.ofObjects objs) r rayT rec g = ((rec', true), g')) :
    ∃ o, o ∈ objs ∧ ∃ I rec0 g0 g1, Interval.min I = rayT.min ∧
      Obj.hit F o r I rec0 g0 = ((rec', true), g1) :=
  bvh_hit_comes_from_member F objs r rayT rec g rec' g' h

/-- Witness for the amended C2, on the tie scene: the record the BVH
reports is indeed produced by a member object. -/
theorem bvh_hit_reports_member_object_hit_witness :
    Obj.hit F0 (BvhNode.ofObjects [q2a, q2b]) tieRay ⟨.fin (1 / 1000), .pinf⟩
        HitRecord.dflt (RNG.const (1 / 2)) =
      ((tieRec 1, true), RNG.const (1 / 2)) ∧
    (∃ o, o ∈ [q2a, q2b] ∧ ∃ I rec0 g0 g1,
      Interval.min I = (⟨.fin (1 / 1000), .pinf⟩ : Interval).min ∧
      Obj.hit F0 o tieRay I rec0 g0 = ((tieRec 1, true), g1)) :=
  ⟨tie_bvh_hit,
    bvh_hit_reports_member_object_hit F0 [q2a, q2b] tieRay
      ⟨.fin (1 / 1000), .pinf⟩ HitRecord.dflt (RNG.const (1 / 2)) (tieRec 1)
      (RNG.const (1 / 2)) tie_bvh_hit⟩

theorem listAdd_fst (s : List Obj × Aabb) (o : Obj) :
    (listAdd s o).1 = s.1 ++ [o] := by
  cases s with
  | mk objs bbox =>
    cases h : o.boundingBox <;> simp [listAdd, h]

theorem foldl_listAdd_fst :
    ∀ (objs : List Obj) (s : List Obj × Aabb),
      (objs.foldl listAdd s).1 = s.1 ++ objs := by
  intro objs
  induction objs with
  | nil => intro s; simp
  | cons o rest ih =>
    intro s
    rw [List.foldl_cons, ih, listAdd_fst]
    simp

/-- `pdf_value` of a `HittableList` built by `add`: the unweighted `1/n`
average of the children. -/
theorem pdfValue_ofList (F : FloatOps) (objs : List Obj)
    (origin direction : Vec3) :
    Obj.pdfValue F (HittableList.ofList objs) origin direction =
      if objs.isEmpty then 0
      else pdfSum F objs origin direction (1 / (objs.length : ℚ)) := by
  have hfst : (objs.foldl listAdd ([], Aabb.empty)).1 = objs := by
    simpa using foldl_listAdd_fst objs ([], Aabb.empty)
  simp only [HittableList.ofList]
  rw [show Obj.list (objs.foldl listAdd ([], Aabb.empty)).1
      (objs.foldl listAdd ([], Aabb.empty)).2 =
      Obj.list objs (objs.foldl listAdd ([], Aabb.empty)).2 from by rw [hfst]]
  simp [Obj.pdfValue]

theorem ord_lt_eq_gt : (Ordering.lt = Ordering.gt) = False := by simp

theorem ord_eq_eq_gt : (Ordering.eq = Ordering.gt) = False := by simp

theorem ord_gt_eq_gt : (Ordering.gt = Ordering.gt) = True := by simp

theorem ord_lt_eq_lt : (Ordering.lt = Ordering.lt) = True := by simp

theorem ord_eq_eq_lt : (Ordering.eq = Ordering.lt) = False := by simp

theorem ord_gt_eq_lt : (Ordering.gt = Ordering.lt) = False := by simp

/-- The three spheres of the pdf counterexample, constructor form. -/
def s4a : Obj := Sphere.new ⟨5, 0, 0⟩ 3 11

/-- Second sphere of the pdf counterexample (off the probe ray). -/
def s4b : Obj := Sphere.new ⟨0, 5, 0⟩ 1 12

/-- Third sphere of the pdf counterexample (off the probe ray). -/
def s4c : Obj := Sphere.new ⟨0, 10, 0⟩ 1 13

/-- Field-literal form of `s4a`. -/
def s4aL : Obj := Obj.sphere ⟨⟨5, 0, 0⟩, ⟨0, 0, 0⟩, 0⟩ 3 11
  ⟨⟨.fin 2, .fin 8⟩, ⟨.fin (-3), .fin 3⟩, ⟨.fin (-3), .fin 3⟩⟩

/-- Field-literal form of `s4b`. -/
def s4bL : Obj := Obj.sphere ⟨⟨0, 5, 0⟩, ⟨0, 0, 0⟩, 0⟩ 1 12
  ⟨⟨.fin (-1), .fin 1⟩, ⟨.fin 4, .fin 6⟩, ⟨.fin (-1), .fin 1⟩⟩

/-- Field-literal form of `s4c`. -/
def s4cL : Obj := Obj.sphere ⟨⟨0, 10, 0⟩, ⟨0, 0, 0⟩, 0⟩ 1 13
  ⟨⟨.fin (-1), .fin 1⟩, ⟨.fin 9, .fin 11⟩, ⟨.fin (-1), .fin 1⟩⟩

theorem s4_eval : s4a = s4aL ∧ s4b = s4bL ∧ s4c = s4cL := by
  refine ⟨?_, ?_, ?_⟩ <;>
  · simp [s4a, s4b, s4c, s4aL, s4bL, s4cL, Sphere.new, Aabb.newPoint,
      Aabb.padToMinimums, Interval.expand, Ext.subR, Ext.addR, Interval.mkQ,
      Interval.size, Ext.esub, Ext.blt, Vec3.zeros]
    norm_num

set_option maxHeartbeats 2000000 in
theorem s4_bvh_build :
    BvhNode.ofObjects [s4a, s4b, s4c] =
      Obj.bvhNode
        (Obj.bvhNode s4aL s4aL
          ⟨⟨.fin 2, .fin 8⟩, ⟨.fin (-3), .fin 3⟩, ⟨.fin (-3), .fin 3⟩⟩)
        (Obj.bvhNode s4bL s4cL
          ⟨⟨.fin (-1), .fin 1⟩, ⟨.fin 4, .fin 11⟩, ⟨.fin (-1), .fin 1⟩⟩)
        ⟨⟨.fin (-1), .fin 8⟩, ⟨.fin (-3), .fin 11⟩, ⟨.fin (-3), .fin 3⟩⟩ := by
  rw [s4_eval.1, s4_eval.2.1, s4_eval.2.2]
  norm_num [BvhNode.ofObjects, BvhNode.fromSlice, sliceBbox, boxCompare,
    Ext.ecmp, Aabb.longestAxis, Interval.size, Ext.esub, Aabb.merge,
    Interval.merge, Ext.emin, Ext.emax, Obj.boundingBox, s4aL, s4bL, s4cL,
    Ext.ble, Ext.blt, Aabb.empty, Interval.empty, Aabb.axisInterval, sortLe,
    insertLe, List.take, List.drop, ord_lt_eq_gt, ord_eq_eq_gt, ord_gt_eq_gt,
    ord_lt_eq_lt, ord_eq_eq_lt, ord_gt_eq_lt]

theorem sqrt_nine : Rat.sqrt 9 = 3 := by
  have h : (9 : ℚ) = mkRat 9 1 := by norm_num [Rat.mkRat_eq_div]
  rw [h]
  norm_num [Rat.sqrt]

theorem sqrt_sixteen_over_twentyfive : Rat.sqrt (16 / 25) = 4 / 5 := by
  have h : (16 / 25 : ℚ) = mkRat 16 25 := by norm_num [Rat.mkRat_eq_div]
  rw [h]
  norm_num [Rat.sqrt]

set_option maxHeartbeats 4000000 in
/-- Counterexample to C4 as frozen: over three spheres, of which only
the first is struck by the probe direction, the BVH's recursive
`0.5/0.5` averaging weights the struck sphere by `1/2` while the flat
list weights it by `1/3`, so the two `pdf_value`s differ
(`113/284` versus `113/426` with `pi` modelled as `355/113`). -/
theorem bvh_pdf_value_differs_from_flat :
    Obj.pdfValue F0 (BvhNode.ofObjects [s4a, s4b, s4c]) ⟨0, 0, 0⟩ ⟨1, 0, 0⟩ ≠
      Obj.pdfValue F0 (HittableList.ofList [s4a, s4b, s4c]) ⟨0, 0, 0⟩
        ⟨1, 0, 0⟩ := by
  have hb : Obj.pdfValue F0 (BvhNode.ofObjects [s4a, s4b, s4c]) ⟨0, 0, 0⟩
      ⟨1, 0, 0⟩ = 113 / 284 := by
    rw [s4_bvh_build]
    norm_num [Obj.pdfValue, s4aL, s4bL, s4cL, Obj.hit, Interval.surrounds,
      Ext.blt, Ext.ble, Vec3.dot, Vec3.normSq, Vec3.divQ, Ray.at, sphereUV,
      HitRecord.setFaceNormal, HitRecord.dflt, F0, RNG.const, sqrt_nine,
      sqrt_sixteen_over_twentyfive]
  have hf : Obj.pdfValue F0 (HittableList.ofList [s4a, s4b, s4c]) ⟨0, 0, 0⟩
      ⟨1, 0, 0⟩ = 113 / 426 := by
    rw [pdfValue_ofList]
    rw [s4_eval.1, s4_eval.2.1, s4_eval.2.2]
    norm_num [pdfSum, Obj.pdfValue, s4aL, s4bL, s4cL, Obj.hit,
      Interval.surrounds, Ext.blt, Ext.ble, Vec3.dot, Vec3.normSq, Vec3.divQ,
      Ray.at, sphereUV, HitRecord.setFaceNormal, HitRecord.dflt, F0,
      RNG.const, sqrt_nine, sqrt_sixteen_over_twentyfive]
  rw [hb, hf]
  norm_num

/-- C4 (amended): a BVH node's `pdf_value` is the `0.5/0.5` average of
its two children's, which agrees with the flat list's unweighted `1/n`
average for lists of one or two objects (after `BvhNode::new`); for
three or more objects the BVH weights leaves by `2^(-depth)`, which
differs from `1/n` in general (see the counterexample). -/
theorem bvh_pdf_value_matches_flat_for_small_lists (F : FloatOps)
    (o1 o2 : Obj) (origin direction : Vec3) :
    Obj.pdfValue F (BvhNode.ofObjects [o1]) origin direction =
      Obj.pdfValue F (HittableList.ofList [o1]) origin direction ∧
    Obj.pdfValue F (BvhNode.ofObjects [o1, o2]) origin direction =
      Obj.pdfValue F (HittableList.ofList [o1, o2]) origin direction := by
  constructor
  · rw [pdfValue_ofList]
    simp only [BvhNode.ofObjects, BvhNode.fromSlice]
    simp [Obj.pdfValue, pdfSum]
    ring
  · rw [pdfValue_ofList]
    simp only [BvhNode.ofObjects, BvhNode.fromSlice]
    by_cases hc : boxCompare o1 o2 (sliceBbox [o1, o2]).longestAxis = .lt
    · rw [if_pos hc]
      simp [Obj.pdfValue, pdfSum]
      ring
    · rw [if_neg hc]
      simp [Obj.pdfValue, pdfSum]
      ring

/-- Statement-level box containment: on every axis the outer interval's
minimum is `<=` the inner's minimum and its maximum is `>=` the inner's
maximum. -/
def boxEncloses (outer inner : Aabb) : Prop :=
  Ext.ble outer.x.min inner.x.min = true ∧
  Ext.ble inner.x.max outer.x.max = true ∧
  Ext.ble outer.y.min inner.y.min = true ∧
  Ext.ble inner.y.max outer.y.max = true ∧
  Ext.ble outer.z.min inner.z.min = true ∧
  Ext.ble inner.z.max outer.z.max = true

/-- C9: `Aabb::merge` is commutative and associative, and the merged
box contains both inputs (on every axis the merged interval's min is
`<=` each input's min and its max is `>=` each input's max). -/
theorem aabb_merge_comm_assoc_encloses (a b c : Aabb) :
    a.merge b = b.merge a ∧
    (a.merge b).merge c = a.merge (b.merge c) ∧
    boxEncloses (a.merge b) a ∧ boxEncloses (a.merge b) b := by
  refine ⟨?_, ?_, ?_, ?_⟩
  · simp only [Aabb.merge, Interval.merge]
    rw [Ext.emin_comm a.x.min b.x.min, Ext.emax_comm a.x.max b.x.max,
      Ext.emin_comm a.y.min b.y.min, Ext.emax_comm a.y.max b.y.max,
      Ext.emin_comm a.z.min b.z.min, Ext.emax_comm a.z.max b.z.max]
  · simp only [Aabb.merge, Interval.merge]
    rw [Ext.emin_assoc a.x.min b.x.min c.x.min,
      Ext.emax_assoc a.x.max b.x.max c.x.max,
      Ext.emin_assoc a.y.min b.y.min c.y.min,
      Ext.emax_assoc a.y.max b.y.max c.y.max,
      Ext.emin_assoc a.z.min b.z.min c.z.min,
      Ext.emax_assoc a.z.max b.z.max c.z.max]
  · exact ⟨Ext.ble_emin_left .., Ext.ble_emax_left ..,
      Ext.ble_emin_left .., Ext.ble_emax_left ..,
      Ext.ble_emin_left .., Ext.ble_emax_left ..⟩
  · exact ⟨Ext.ble_emin_right .., Ext.ble_emax_right ..,
      Ext.ble_emin_right .., Ext.ble_emax_right ..,
      Ext.ble_emin_right .., Ext.ble_emax_right ..⟩

/-- A sampling density object (`dyn PDF`): a density over directions and
a direction sampler threading the random stream. -/
structure PDFo where
  value : Vec3 → ℚ
  generate : RNG → Vec3 × RNG

/-- `f64::clamp(lo, hi)`. -/
def fclamp (x lo hi : ℚ) : ℚ :=
  if x < lo then lo else if x > hi then hi else x

/-- `MixturePDF`'s stored fields. -/
structure MixturePDF where
  pdf1 : PDFo
  pdf2 : PDFo
  weight1 : ℚ
  weight2 : ℚ

/-- `MixturePDF::new_weighted`: clamps the weight into `[0,1]` and
stores the complementary weight. -/
def MixturePDF.new_weighted (pdf1 pdf2 : PDFo) (weight1 : ℚ) : MixturePDF :=
  let w := fclamp weight1 0 1
  ⟨pdf1, pdf2, w, 1 - w⟩

/-- `MixturePDF::new`: the equal-weight mixture. -/
def MixturePDF.new (pdf1 pdf2 : PDFo) : MixturePDF :=
  MixturePDF.new_weighted pdf1 pdf2 (1 / 2)

/-- `MixturePDF::value`: the weighted sum of the component densities,
floored at `1e-8`. -/
def MixturePDF.value (m : MixturePDF) (direction : Vec3) : ℚ :=
  let v := m.weight1 * m.pdf1.value direction +
    m.weight2 * m.pdf2.value direction
  if v < 1 / 100000000 then 1 / 100000000 else v

/-- `MixturePDF::generate`: draw a uniform, pick the first component
when it falls below `weight1`. -/
def MixturePDF.generate (m : MixturePDF) (g : RNG) : Vec3 × RNG :=
  let s := RNG.next g
  if s.1 < m.weight1 then m.pdf1.generate s.2 else m.pdf2.generate s.2

/-- A density that is zero in every direction. -/
def zeroPDF : PDFo := ⟨fun _ => 0, fun g => (⟨1, 0, 0⟩, g)⟩

/-- Counterexample to C3 as frozen: with two everywhere-zero component
densities and weight `1/2`, the weighted sum is `0` but
`MixturePDF::value` returns its floor `1e-8`, so `value` is not the
weighted sum. -/
theorem mixture_value_not_weighted_sum :
    (MixturePDF.new_weighted zeroPDF zeroPDF (1 / 2)).value ⟨0, 0, 1⟩ ≠
      1 / 2 * zeroPDF.value ⟨0, 0, 1⟩ +
        (1 - 1 / 2) * zeroPDF.value ⟨0, 0, 1⟩ := by
  norm_num [MixturePDF.new_weighted, MixturePDF.value, zeroPDF, fclamp]

/-- C3 (amended): for a mixing weight already in `[0,1]`,
`MixturePDF::value` equals the weighted sum
`w * pdf1.value(d) + (1-w) * pdf2.value(d)` floored at `1e-8`: the
weighted sum itself whenever that sum is at least `1e-8`, and `1e-8`
otherwise. -/
theorem mixture_pdf_value_is_floored_weighted_sum (p1 p2 : PDFo) (w : ℚ)
    (h0 : 0 ≤ w) (h1 : w ≤ 1) (d : Vec3) :
    (MixturePDF.new_weighted p1 p2 w).value d =
      max (w * p1.value d + (1 - w) * p2.value d) (1 / 100000000) := by
  have hc : fclamp w 0 1 = w := by
    simp only [fclamp, if_neg (not_lt.mpr h0), if_neg (not_lt.mpr h1)]
  simp only [MixturePDF.new_weighted, MixturePDF.value, hc]
  rcases lt_or_le (w * p1.value d + (1 - w) * p2.value d) (1 / 100000000)
    with hv | hv
  · rw [if_pos hv, max_eq_right hv.le]
  · rw [if_neg (not_lt.mpr hv), max_eq_left hv]

theorem mixture_pdf_value_is_floored_weighted_sum_witness :
    (0 : ℚ) ≤ 1 / 2 ∧ (1 / 2 : ℚ) ≤ 1 ∧
    (MixturePDF.new_weighted zeroPDF zeroPDF (1 / 2)).value ⟨0, 0, 1⟩ =
      max (1 / 2 * zeroPDF.value ⟨0, 0, 1⟩ +
        (1 - 1 / 2) * zeroPDF.value ⟨0, 0, 1⟩) (1 / 100000000) :=
  ⟨by norm_num, by norm_num,
    mixture_pdf_value_is_floored_weighted_sum zeroPDF zeroPDF (1 / 2)
      (by norm_num) (by norm_num) ⟨0, 0, 1⟩⟩

/-- `ScatterRecord`. -/
structure ScatterRec where
  attenuation : Vec3
  pdfPtr : Option PDFo
  skipPdf : Bool
  skipPdfRay : Ray

/-- `ScatterRecord::new`. -/
def ScatterRec.new : ScatterRec :=
  ⟨⟨0, 0, 0⟩, none, false, ⟨Vec3.zeros, Vec3.zeros, 0⟩⟩

/-- `ScatterRecord::set_specular`. -/
def ScatterRec.set_specular (srec : ScatterRec) (attenuation : Vec3)
    (ray : Ray) : ScatterRec :=
  { srec with
    attenuation := attenuation
    skipPdf := true
    skipPdfRay := ray
    pdfPtr := none }

/-- `ScatterRecord::set_diffuse`. -/
def ScatterRec.set_diffuse (srec : ScatterRec) (attenuation : Vec3)
    (pdf : PDFo) : ScatterRec :=
  { srec with
    attenuation := attenuation
    skipPdf := false
    pdfPtr := some pdf }

/-- `ONB` (orthonormal basis), with its three axis vectors. -/
structure ONB where
  u : Vec3
  v : Vec3
  w : Vec3

/-- `ONB::new`. -/
def ONB.new (F : FloatOps) (n : Vec3) : ONB :=
  let w := n.normalize F
  let a : Vec3 := if |w.x| > 9 / 10 then ⟨0, 1, 0⟩ else ⟨1, 0, 0⟩
  let v := (w.cross a).normalize F
  let u := v.cross w
  ⟨u, v, w⟩

/-- `ONB::local_to_world`. -/
def ONB.localToWorld (b : ONB) (local0 : Vec3) : Vec3 :=
  local0.x • b.u + local0.y • b.v + local0.z • b.w

/-- `Vec3::random_range(-1, 1)`: three draws mapped into `[-1, 1)`
(`random_double_range` lives in the `utils` module, absent from this
snapshot; it is modelled as `min + (max - min) * random_double()`). -/
def randomRange3 (g : RNG) : Vec3 × RNG :=
  let s1 := RNG.next g
  let s2 := RNG.next s1.2
  let s3 := RNG.next s2.2
  (⟨-1 + 2 * s1.1, -1 + 2 * s2.1, -1 + 2 * s3.1⟩, s3.2)

/-- The rejection loop of `Vec3::random_in_unit_sphere`, with explicit
fuel; the `loop` of the source has no bound, and the fuel-exhausted
default is never reached for draws that eventually produce a point
inside the sphere. -/
def randomInUnitSphereGo : ℕ → RNG → Vec3 × RNG
  | 0, g => (Vec3.zeros, g)
  | fuel + 1, g =>
    let s := randomRange3 g
    if s.1.normSq < 1 then s else randomInUnitSphereGo fuel s.2

/-- `Vec3::random_in_unit_sphere`. -/
def Vec3.randomInUnitSphere (g : RNG) : Vec3 × RNG :=
  randomInUnitSphereGo 1000000 g

/-- The rejection loop of `Vec3::random_unit_vector`, with explicit
fuel (see `randomInUnitSphereGo`). -/
def randomUnitVectorGo (F : FloatOps) : ℕ → RNG → Vec3 × RNG
  | 0, g => (Vec3.zeros, g)
  | fuel + 1, g =>
    let s := randomRange3 g
    let lenSquared := s.1.normSq
    if 1 / 10 ^ 160 < lenSquared ∧ lenSquared ≤ 1 then
      (s.1.divQ (F.sqrt lenSquared), s.2)
    else randomUnitVectorGo F fuel s.2

/-- `Vec3::random_unit_vector`. -/
def Vec3.randomUnitVector (F : FloatOps) (g : RNG) : Vec3 × RNG :=
  randomUnitVectorGo F 1000000 g

/-- `Vec3::random_cosine_direction`. -/
def Vec3.randomCosineDirection (F : FloatOps) (g : RNG) : Vec3 × RNG :=
  let s1 := RNG.next g
  let s2 := RNG.next s1.2
  let phi := 2 * F.pi * s1.1
  (⟨F.cos phi * F.sqrt s2.1, F.sin phi * F.sqrt s2.1, F.sqrt (1 - s2.1)⟩,
    s2.2)

/-- `CosinePDF::new`, packaged as its `dyn PDF` interface. -/
def CosinePDF.new (F : FloatOps) (normal : Vec3) : PDFo :=
  let uvw := ONB.new F normal
  ⟨fun direction => max 0 ((direction.normalize F).dot uvw.w / F.pi),
   fun g =>
     let s := Vec3.randomCosineDirection F g
     (uvw.localToWorld s.1, s.2)⟩

/-- `SpherePDF`, packaged as its `dyn PDF` interface. -/
def spherePDFo (F : FloatOps) : PDFo :=
  ⟨fun _ => 1 / (4 * F.pi), fun g => Vec3.randomUnitVector F g⟩

mutual

/-- `Hittable::random` for every implementation: `Sphere` samples its
solid angle through an ONB, `Quad` samples a surface point, the list
delegates to a uniformly drawn child (`random_int_range`, from the
absent `utils` module, is modelled as the floor of `u * len`; an
out-of-range index falls back to the default direction the way the
trait's default does), the BVH node delegates to a coin-picked child,
and `Translate`, `RotateY` and `ConstantMedium` inherit the trait
default `(1, 0, 0)`. -/
def Obj.random (F : FloatOps) : Obj → Vec3 → RNG → Vec3 × RNG
  | .sphere center radius _ _, origin, g =>
    let currentCenter := center.at 0
    let direction := currentCenter - origin
    let distanceSquared := direction.normSq
    let uvw := ONB.new F direction
    let s1 := RNG.next g
    let s2 := RNG.next s1.2
    let z := 1 + s2.1 * (F.sqrt (1 - radius * radius / distanceSquared) - 1)
    let phi := 2 * F.pi * s1.1
    let x := F.cos phi * F.sqrt (1 - z * z)
    let y := F.sin phi * F.sqrt (1 - z * z)
    (uvw.localToWorld ⟨x, y, z⟩, s2.2)
  | .quad q u v _ _ _ _ _ _, origin, g =>
    let s1 := RNG.next g
    let s2 := RNG.next s1.2
    (q + s1.1 • u + s2.1 • v - origin, s2.2)
  | .list objs _, origin, g =>
    if objs.isEmpty then (⟨1, 0, 0⟩, g)
    else
      let s := RNG.next g
      randomNth F objs (Int.toNat ⌊s.1 * (objs.length : ℚ)⌋) origin s.2
  | .bvhNode left right _, origin, g =>
    let s := RNG.next g
    if s.1 < 1 / 2 then Obj.random F left origin s.2
    else Obj.random F right origin s.2
  | .translate _ _ _, _, g => (⟨1, 0, 0⟩, g)
  | .rotateY _ _ _ _, _, g => (⟨1, 0, 0⟩, g)
  | .constantMedium _ _ _, _, g => (⟨1, 0, 0⟩, g)

/-- `self.objects[index].random(origin)`: structural indexing into the
list's children. -/
def randomNth (F : FloatOps) : List Obj → ℕ → Vec3 → RNG → Vec3 × RNG
  | [], _, _, g => (⟨1, 0, 0⟩, g)
  | o :: _, 0, origin, g => Obj.random F o origin g
  | _ :: rest, n + 1, origin, g => randomNth F rest n origin g

end

/-- `HittablePDF::new`, packaged as its `dyn PDF` interface. -/
def HittablePDF.new (F : FloatOps) (objects : Obj) (origin : Vec3) : PDFo :=
  ⟨fun direction => Obj.pdfValue F objects origin direction,
   fun g => Obj.random F objects origin g⟩

/-- Stand-in for the panic of `srec.pdf_ptr.expect(..)`: on every
diffuse path the materials store `Some pdf` (see the mode invariant),
so this default is never consulted; a default keeps the function
total. -/
def deadPDF : PDFo := ⟨fun _ => 0, fun g => (⟨1, 0, 0⟩, g)⟩

/-- A `dyn Material`: the trait's three methods. -/
structure Materialo where
  scatter : Ray → HitRecord → ScatterRec → RNG → (ScatterRec × Bool) × RNG
  emitted : ℚ → ℚ → Vec3 → Vec3
  scatteringPdf : Ray → HitRecord → Ray → ℚ

/-- The importance-sampling step of `Camera::ray_color` (lines
204-216): with lights, mix the light sampler with the material's pdf;
without, draw from the material's pdf alone.  Returns the sampled
direction, the density drawn for it, and the advanced stream. -/
def rcDraw (F : FloatOps) (lights : Option Obj) (srec : ScatterRec)
    (p : Vec3) (g : RNG) : (Vec3 × ℚ) × RNG :=
  match lights with
  | some lightObjects =>
    let lightPdf := HittablePDF.new F lightObjects p
    let mixturePdf := MixturePDF.new lightPdf (srec.pdfPtr.getD deadPDF)
    let sd := MixturePDF.generate mixturePdf g
    ((sd.1, MixturePDF.value mixturePdf sd.1), sd.2)
  | none =>
    let pdf := srec.pdfPtr.getD deadPDF
    let sd := pdf.generate g
    ((sd.1, pdf.value sd.1), sd.2)

/-- `Camera::ray_color`, with depth as the recursion fuel (`depth <= 0`
is the `0` case), the world as an `Obj`, materials looked up by id, and
the random stream threaded in source order.  The guard
`pdf_value < 1e-6 || !pdf_value.is_finite()` keeps only its threshold
half: every rational of the model is finite. -/
def rayColor (F : FloatOps) (world : Obj) (mats : ℕ → Materialo)
    (lights : Option Obj) (background : Vec3) :
    ℕ → Ray → RNG → Vec3 × RNG
  | 0, _, g => (Vec3.zeros, g)
  | d + 1, r, g =>
    let s1 := Obj.hit F world r ⟨.fin (1 / 1000), .pinf⟩ HitRecord.dflt g
    if !s1.1.2 then (background, s1.2)
    else
      let rec1 := s1.1.1
      let m := mats rec1.mat
      let emission := m.emitted rec1.u rec1.v rec1.p
      let s2 := m.scatter r rec1 ScatterRec.new s1.2
      if !s2.1.2 then (emission, s2.2)
      else
        let srec := s2.1.1
        if srec.skipPdf then
          let s3 := rayColor F world mats lights background d
            srec.skipPdfRay s2.2
          (emission + srec.attenuation.compMul s3.1, s3.2)
        else
          let draw := rcDraw F lights srec rec1.p s2.2
          let pdfValue := draw.1.2
          if pdfValue < 1 / 1000000 then (emission, draw.2)
          else
            let scattered : Ray := ⟨rec1.p, draw.1.1, r.time⟩
            let scatteringPdf := m.scatteringPdf r rec1 scattered
            if d + 1 > 3 then
              let sr := RNG.next draw.2
              if sr.1 > 4 / 5 then (emission, sr.2)
              else
                let rrScale := 1 / (4 / 5 : ℚ)
                let s4 := rayColor F world mats lights background d
                  scattered sr.2
                (emission + (rrScale • (srec.attenuation.compMul
                  (scatteringPdf • s4.1))).divQ pdfValue, s4.2)
            else
              let s4 := rayColor F world mats lights background d
                scattered draw.2
              (emission + (srec.attenuation.compMul
                (scatteringPdf • s4.1)).divQ pdfValue, s4.2)

/-- The single tie quad, hit by `tieRay` head-on at `t = 1`: the world
probe used by the integrator evaluations. -/
theorem c1_quad_hit (g : RNG) :
    Obj.hit F0 (quadTie 1) tieRay ⟨.fin (1 / 1000), .pinf⟩ HitRecord.dflt
      g = ((tieRec 1, true), g) := by
  norm_num [Obj.hit, quadTie, tieRay, tieRec, tieBox, Interval.contains,
    Ext.ble, Ext.blt, Vec3.dot, Vec3.cross, Vec3.normSq, Ray.at,
    HitRecord.setFaceNormal, HitRecord.dflt]

/-- C7: for every non-specular scatter, once the density drawn for the
sampled direction falls below the `1e-6` threshold, `ray_color` returns
the material's emission alone (no division by the density, no
recursion), handing back the stream exactly as the sampling step left
it.  (The guard's other half, `!pdf_value.is_finite()`, has no rational
counterpart: every value of the model is finite.) -/
theorem degenerate_pdf_returns_emission (F : FloatOps) (world : Obj)
    (mats : ℕ → Materialo) (lights : Option Obj) (background : Vec3)
    (d : ℕ) (r : Ray) (g : RNG) (rec1 : HitRecord) (g1 : RNG)
    (srec : ScatterRec) (g2 : RNG) (dir : Vec3) (pv : ℚ) (g3 : RNG)
    (hhit : Obj.hit F world r ⟨.fin (1 / 1000), .pinf⟩ HitRecord.dflt g =
      ((rec1, true), g1))
    (hscat : (mats rec1.mat).scatter r rec1 ScatterRec.new g1 =
      ((srec, true), g2))
    (hskip : srec.skipPdf = false)
    (hdraw : rcDraw F lights srec rec1.p g2 = ((dir, pv), g3))
    (hbad : pv < 1 / 1000000) :
    rayColor F world mats lights background (d + 1) r g =
      ((mats rec1.mat).emitted rec1.u rec1.v rec1.p, g3) := by
  simp only [rayColor]
  rw [hhit]
  simp only [Bool.not_true, Bool.false_eq_true, if_false]
  rw [hscat]
  simp only [Bool.not_true, Bool.false_eq_true, if_false]
  rw [hskip]
  simp only [Bool.false_eq_true, if_false]
  rw [hdraw]
  simp only []
  rw [if_pos hbad]

/-- A material whose diffuse pdf is everywhere zero, with a nonzero
emission, used to exercise the degenerate-density guard. -/
def c7Mat : Materialo :=
  ⟨fun _ _ srec g => ((srec.set_diffuse ⟨1 / 2, 1 / 2, 1 / 2⟩ zeroPDF,
      true), g),
   fun _ _ _ => ⟨3, 2, 1⟩,
   fun _ _ _ => 1⟩

/-- The scatter record `c7Mat` produces. -/
def c7Srec : ScatterRec :=
  ScatterRec.set_diffuse ScatterRec.new ⟨1 / 2, 1 / 2, 1 / 2⟩ zeroPDF

theorem degenerate_pdf_returns_emission_witness :
    Obj.hit F0 (quadTie 1) tieRay ⟨.fin (1 / 1000), .pinf⟩ HitRecord.dflt
        (RNG.const (9 / 10)) = ((tieRec 1, true), RNG.const (9 / 10)) ∧
    ((fun _ => c7Mat) (tieRec 1).mat).scatter tieRay (tieRec 1)
        ScatterRec.new (RNG.const (9 / 10)) =
      ((c7Srec, true), RNG.const (9 / 10)) ∧
    c7Srec.skipPdf = false ∧
    rcDraw F0 none c7Srec (tieRec 1).p (RNG.const (9 / 10)) =
      ((⟨1, 0, 0⟩, 0), RNG.const (9 / 10)) ∧
    (0 : ℚ) < 1 / 1000000 ∧
    rayColor F0 (quadTie 1) (fun _ => c7Mat) none ⟨7, 7, 7⟩ (0 + 1) tieRay
        (RNG.const (9 / 10)) =
      (((fun _ => c7Mat) (tieRec 1).mat).emitted (tieRec 1).u (tieRec 1).v
        (tieRec 1).p, RNG.const (9 / 10)) :=
  ⟨c1_quad_hit (RNG.const (9 / 10)), rfl, rfl, rfl, by norm_num,
    degenerate_pdf_returns_emission F0 (quadTie 1) (fun _ => c7Mat) none
      ⟨7, 7, 7⟩ 0 tieRay (RNG.const (9 / 10)) (tieRec 1)
      (RNG.const (9 / 10)) c7Srec (RNG.const (9 / 10)) ⟨1, 0, 0⟩ 0
      (RNG.const (9 / 10)) (c1_quad_hit (RNG.const (9 / 10))) rfl rfl rfl
      (by norm_num)⟩

/-- SPEC-MODELLED (from C1's sentence, not from the source): the same
integrator but with the roulette test `depth < max_depth - 3` (natural
subtraction) the claim describes, `max_depth` passed alongside;
everything else mirrors `rayColor`.  For the refinement comparison
only. -/
def rayColorClaim (F : FloatOps) (world : Obj) (mats : ℕ → Materialo)
    (lights : Option Obj) (background : Vec3) (maxDepth : ℕ) :
    ℕ → Ray → RNG → Vec3 × RNG
  | 0, _, g => (Vec3.zeros, g)
  | d + 1, r, g =>
    let s1 := Obj.hit F world r ⟨.fin (1 / 1000), .pinf⟩ HitRecord.dflt g
    if !s1.1.2 then (background, s1.2)
    else
      let rec1 := s1.1.1
      let m := mats rec1.mat
      let emission := m.emitted rec1.u rec1.v rec1.p
      let s2 := m.scatter r rec1 ScatterRec.new s1.2
      if !s2.1.2 then (emission, s2.2)
      else
        let srec := s2.1.1
        if srec.skipPdf then
          let s3 := rayColorClaim F world mats lights background maxDepth d
            srec.skipPdfRay s2.2
          (emission + srec.attenuation.compMul s3.1, s3.2)
        else
          let draw := rcDraw F lights srec rec1.p s2.2
          let pdfValue := draw.1.2
          if pdfValue < 1 / 1000000 then (emission, draw.2)
          else
            let scattered : Ray := ⟨rec1.p, draw.1.1, r.time⟩
            let scatteringPdf := m.scatteringPdf r rec1 scattered
            if d + 1 < maxDepth - 3 then
              let sr := RNG.next draw.2
              if sr.1 > 4 / 5 then (emission, sr.2)
              else
                let rrScale := 1 / (4 / 5 : ℚ)
                let s4 := rayColorClaim F world mats lights background
                  maxDepth d scattered sr.2
                (emission + (rrScale • (srec.attenuation.compMul
                  (scatteringPdf • s4.1))).divQ pdfValue, s4.2)
            else
              let s4 := rayColorClaim F world mats lights background
                maxDepth d scattered draw.2
              (emission + (srec.attenuation.compMul
                (scatteringPdf • s4.1)).divQ pdfValue, s4.2)

/-- A constant unit-density pdf whose sampler always proposes
`(0, 0, -1)` without consuming the stream: a concrete `dyn PDF`. -/
def unitPDF : PDFo := ⟨fun _ => 1, fun g => (⟨0, 0, -1⟩, g)⟩

/-- A diffuse test material with attenuation `(1/2, 1/2, 1/2)`, black
emission, scattering pdf `1`, and `unitPDF` as its sampler. -/
def c1Mat : Materialo :=
  ⟨fun _ _ srec g => ((srec.set_diffuse ⟨1 / 2, 1 / 2, 1 / 2⟩ unitPDF,
      true), g),
   fun _ _ _ => Vec3.zeros,
   fun _ _ _ => 1⟩

/-- Material table sending every id to `c1Mat`. -/
def c1Mats : ℕ → Materialo := fun _ => c1Mat

/-- The scatter record `c1Mat` produces. -/
def c1Srec : ScatterRec :=
  ScatterRec.set_diffuse ScatterRec.new ⟨1 / 2, 1 / 2, 1 / 2⟩ unitPDF

/-- The scattered probe: from the quad's surface point straight back
out; it leaves the scene, so the next bounce returns the background. -/
def c1Scattered : Ray := ⟨⟨1 / 2, 1 / 2, 0⟩, ⟨0, 0, -1⟩, 0⟩

/-- The scattered probe exits the scene: the quad's plane is met at
`t = 0`, below the interval's lower bound. -/
theorem c1_quad_miss (g : RNG) :
    Obj.hit F0 (quadTie 1) c1Scattered ⟨.fin (1 / 1000), .pinf⟩
      HitRecord.dflt g = ((HitRecord.dflt, false), g) := by
  norm_num [Obj.hit, quadTie, c1Scattered, tieBox, Interval.contains,
    Ext.ble, Ext.blt, Vec3.dot, Vec3.cross, Vec3.normSq, Ray.at,
    HitRecord.setFaceNormal, HitRecord.dflt]

/-- One symbolic unfolding of `rayColor` on the non-specular path: the
remaining behavior is the roulette `if` on the depth. -/
theorem rayColor_nonspec_step (F : FloatOps) (world : Obj)
    (mats : ℕ → Materialo) (lights : Option Obj) (background : Vec3)
    (d : ℕ) (r : Ray) (g : RNG) (rec1 : HitRecord) (g1 : RNG)
    (srec : ScatterRec) (g2 : RNG) (dir : Vec3) (pv : ℚ) (g3 : RNG)
    (hhit : Obj.hit F world r ⟨.fin (1 / 1000), .pinf⟩ HitRecord.dflt g =
      ((rec1, true), g1))
    (hscat : (mats rec1.mat).scatter r rec1 ScatterRec.new g1 =
      ((srec, true), g2))
    (hskip : srec.skipPdf = false)
    (hdraw : rcDraw F lights srec rec1.p g2 = ((dir, pv), g3))
    (hok : ¬ pv < 1 / 1000000) :
    rayColor F world mats lights background (d + 1) r g =
      if d + 1 > 3 then
        (if (RNG.next g3).1 > 4 / 5 then
          ((mats rec1.mat).emitted rec1.u rec1.v rec1.p, (RNG.next g3).2)
        else
          ((mats rec1.mat).emitted rec1.u rec1.v rec1.p +
            ((1 / (4 / 5 : ℚ)) • (srec.attenuation.compMul
              ((mats rec1.mat).scatteringPdf r rec1 ⟨rec1.p, dir, r.time⟩ •
                (rayColor F world mats lights background d
                  ⟨rec1.p, dir, r.time⟩ (RNG.next g3).2).1))).divQ pv,
            (rayColor F world mats lights background d
              ⟨rec1.p, dir, r.time⟩ (RNG.next g3).2).2))
      else
        ((mats rec1.mat).emitted rec1.u rec1.v rec1.p +
          (srec.attenuation.compMul
            ((mats rec1.mat).scatteringPdf r rec1 ⟨rec1.p, dir, r.time⟩ •
              (rayColor F world mats lights background d
                ⟨rec1.p, dir, r.time⟩ g3).1)).divQ pv,
          (rayColor F world mats lights background d ⟨rec1.p, dir, r.time⟩
            g3).2) := by
  simp only [rayColor]
  rw [hhit]
  simp only [Bool.not_true, Bool.false_eq_true, if_false]
  rw [hscat]
  simp only [Bool.not_true, Bool.false_eq_true, if_false]
  rw [hskip]
  simp only [Bool.false_eq_true, if_false]
  rw [hdraw]
  simp only []
  rw [if_neg hok]

/-- One symbolic unfolding of `rayColorClaim` on the non-specular
path. -/
theorem rayColorClaim_nonspec_step (F : FloatOps) (world : Obj)
    (mats : ℕ → Materialo) (lights : Option Obj) (background : Vec3)
    (maxDepth d : ℕ) (r : Ray) (g : RNG) (rec1 : HitRecord) (g1 : RNG)
    (srec : ScatterRec) (g2 : RNG) (dir : Vec3) (pv : ℚ) (g3 : RNG)
    (hhit : Obj.hit F world r ⟨.fin (1 / 1000), .pinf⟩ HitRecord.dflt g =
      ((rec1, true), g1))
    (hscat : (mats rec1.mat).scatter r rec1 ScatterRec.new g1 =
      ((srec, true), g2))
    (hskip : srec.skipPdf = false)
    (hdraw : rcDraw F lights srec rec1.p g2 = ((dir, pv), g3))
    (hok : ¬ pv < 1 / 1000000) :
    rayColorClaim F world mats lights background maxDepth (d + 1) r g =
      if d + 1 < maxDepth - 3 then
        (if (RNG.next g3).1 > 4 / 5 then
          ((mats rec1.mat).emitted rec1.u rec1.v rec1.p, (RNG.next g3).2)
        else
          ((mats rec1.mat).emitted rec1.u rec1.v rec1.p +
            ((1 / (4 / 5 : ℚ)) • (srec.attenuation.compMul
              ((mats rec1.mat).scatteringPdf r rec1 ⟨rec1.p, dir, r.time⟩ •
                (rayColorClaim F world mats lights background maxDepth d
                  ⟨rec1.p, dir, r.time⟩ (RNG.next g3).2).1))).divQ pv,
            (rayColorClaim F world mats lights background maxDepth d
              ⟨rec1.p, dir, r.time⟩ (RNG.next g3).2).2))
      else
        ((mats rec1.mat).emitted rec1.u rec1.v rec1.p +
          (srec.attenuation.compMul
            ((mats rec1.mat).scatteringPdf r rec1 ⟨rec1.p, dir, r.time⟩ •
              (rayColorClaim F world mats lights background maxDepth d
                ⟨rec1.p, dir, r.time⟩ g3).1)).divQ pv,
          (rayColorClaim F world mats lights background maxDepth d
            ⟨rec1.p, dir, r.time⟩ g3).2) := by
  simp only [rayColorClaim]
  rw [hhit]
  simp only [Bool.not_true, Bool.false_eq_true, if_false]
  rw [hscat]
  simp only [Bool.not_true, Bool.false_eq_true, if_false]
  rw [hskip]
  simp only [Bool.false_eq_true, if_false]
  rw [hdraw]
  simp only []
  rw [if_neg hok]

/-- When the world misses, `rayColorClaim` returns the background. -/
theorem rayColorClaim_miss (F : FloatOps) (world : Obj)
    (mats : ℕ → Materialo) (lights : Option Obj) (background : Vec3)
    (maxDepth d : ℕ) (r : Ray) (g : RNG) (rec' : HitRecord) (g' : RNG)
    (hmiss : Obj.hit F world r ⟨.fin (1 / 1000), .pinf⟩ HitRecord.dflt g =
      ((rec', false), g')) :
    rayColorClaim F world mats lights background maxDepth (d + 1) r g =
      (background, g') := by
  simp only [rayColorClaim]
  rw [hmiss]
  simp

/-- Counterexample to C1 as frozen: at full depth `10` (`max_depth`
`10`), the code's test `depth > 3` fires the roulette and the draw
`0.9 > 0.8` returns black emission, while the claim's test
`depth < max_depth - 3` does not fire, recurses once into the
background and returns an attenuated nonzero color. -/
theorem roulette_threshold_counterexample :
    (rayColor F0 (quadTie 1) c1Mats none ⟨7, 7, 7⟩ (9 + 1) tieRay
        (RNG.const (9 / 10))).1 ≠
      (rayColorClaim F0 (quadTie 1) c1Mats none ⟨7, 7, 7⟩ 10 (9 + 1)
        tieRay (RNG.const (9 / 10))).1 := by
  have hL : (rayColor F0 (quadTie 1) c1Mats none ⟨7, 7, 7⟩ (9 + 1) tieRay
      (RNG.const (9 / 10))).1 = Vec3.zeros := by
    rw [rayColor_nonspec_step F0 (quadTie 1) c1Mats none ⟨7, 7, 7⟩ 9
      tieRay (RNG.const (9 / 10)) (tieRec 1) (RNG.const (9 / 10)) c1Srec
      (RNG.const (9 / 10)) ⟨0, 0, -1⟩ 1 (RNG.const (9 / 10))
      (c1_quad_hit (RNG.const (9 / 10))) rfl rfl rfl (by norm_num)]
    rw [if_pos (by norm_num), if_pos (by norm_num [RNG.next, RNG.const])]
    simp [c1Mats, c1Mat]
  have hm9 : rayColorClaim F0 (quadTie 1) c1Mats none ⟨7, 7, 7⟩ 10 (8 + 1)
      ⟨(tieRec 1).p, ⟨0, 0, -1⟩, tieRay.time⟩ (RNG.const (9 / 10)) =
      (⟨7, 7, 7⟩, RNG.const (9 / 10)) :=
    rayColorClaim_miss F0 (quadTie 1) c1Mats none ⟨7, 7, 7⟩ 10 8
      ⟨(tieRec 1).p, ⟨0, 0, -1⟩, tieRay.time⟩ (RNG.const (9 / 10))
      HitRecord.dflt (RNG.const (9 / 10))
      (c1_quad_miss (RNG.const (9 / 10)))
  have hR : (rayColorClaim F0 (quadTie 1) c1Mats none ⟨7, 7, 7⟩ 10 (9 + 1)
      tieRay (RNG.const (9 / 10))).1 = ⟨7 / 2, 7 / 2, 7 / 2⟩ := by
    rw [rayColorClaim_nonspec_step F0 (quadTie 1) c1Mats none ⟨7, 7, 7⟩ 10
      9 tieRay (RNG.const (9 / 10)) (tieRec 1) (RNG.const (9 / 10)) c1Srec
      (RNG.const (9 / 10)) ⟨0, 0, -1⟩ 1 (RNG.const (9 / 10))
      (c1_quad_hit (RNG.const (9 / 10))) rfl rfl rfl (by norm_num)]
    rw [if_neg (by norm_num)]
    rw [show (9 : ℕ) = 8 + 1 from rfl, hm9]
    norm_num [c1Mats, c1Mat, c1Srec, ScatterRec.set_diffuse,
      ScatterRec.new, Vec3.compMul, Vec3.divQ, tieRec, Vec3.zeros]
  rw [hL, hR]
  simp only [Vec3.zeros]
  norm_num [Vec3.eq_iff]

/-- C1 (amended): in `Camera::ray_color` the roulette test is
`depth > 3` — it fires at the shallow bounces (`depth` counts down), not
past `max_depth - 3` as claimed.  For every non-specular scatter whose
drawn density passes the `1e-6` guard: at `depth > 3` the uniform draw
decides — above `0.8` the call returns emission only, otherwise it
recurses and the recursive contribution is scaled by `1/0.8` before the
division by the density; at `depth <= 3` no draw is consumed and no
rescale is applied. -/
theorem ray_color_roulette_exactly_past_three (F : FloatOps) (world : Obj)
    (mats : ℕ → Materialo) (lights : Option Obj) (background : Vec3)
    (d : ℕ) (r : Ray) (g : RNG) (rec1 : HitRecord) (g1 : RNG)
    (srec : ScatterRec) (g2 : RNG) (dir : Vec3) (pv : ℚ) (g3 : RNG)
    (hhit : Obj.hit F world r ⟨.fin (1 / 1000), .pinf⟩ HitRecord.dflt g =
      ((rec1, true), g1))
    (hscat : (mats rec1.mat).scatter r rec1 ScatterRec.new g1 =
      ((srec, true), g2))
    (hskip : srec.skipPdf = false)
    (hdraw : rcDraw F lights srec rec1.p g2 = ((dir, pv), g3))
    (hok : ¬ pv < 1 / 1000000) :
    (3 < d + 1 →
      ((RNG.next g3).1 > 4 / 5 →
        rayColor F world mats lights background (d + 1) r g =
          ((mats rec1.mat).emitted rec1.u rec1.v rec1.p,
            (RNG.next g3).2)) ∧
      (¬ (RNG.next g3).1 > 4 / 5 →
        rayColor F world mats lights background (d + 1) r g =
          ((mats rec1.mat).emitted rec1.u rec1.v rec1.p +
            ((1 / (4 / 5 : ℚ)) • (srec.attenuation.compMul
              ((mats rec1.mat).scatteringPdf r rec1 ⟨rec1.p, dir, r.time⟩ •
                (rayColor F world mats lights background d
                  ⟨rec1.p, dir, r.time⟩ (RNG.next g3).2).1))).divQ pv,
            (rayColor F world mats lights background d
              ⟨rec1.p, dir, r.time⟩ (RNG.next g3).2).2))) ∧
    (¬ 3 < d + 1 →
      rayColor F world mats lights background (d + 1) r g =
        ((mats rec1.mat).emitted rec1.u rec1.v rec1.p +
          (srec.attenuation.compMul
            ((mats rec1.mat).scatteringPdf r rec1 ⟨rec1.p, dir, r.time⟩ •
              (rayColor F world mats lights background d
                ⟨rec1.p, dir, r.time⟩ g3).1)).divQ pv,
          (rayColor F world mats lights background d ⟨rec1.p, dir, r.time⟩
            g3).2)) := by
  have hbody : rayColor F world mats lights background (d + 1) r g =
      if d + 1 > 3 then
        (if (RNG.next g3).1 > 4 / 5 then
          ((mats rec1.mat).emitted rec1.u rec1.v rec1.p, (RNG.next g3).2)
        else
          ((mats rec1.mat).emitted rec1.u rec1.v rec1.p +
            ((1 / (4 / 5 : ℚ)) • (srec.attenuation.compMul
              ((mats rec1.mat).scatteringPdf r rec1 ⟨rec1.p, dir, r.time⟩ •
                (rayColor F world mats lights background d
                  ⟨rec1.p, dir, r.time⟩ (RNG.next g3).2).1))).divQ pv,
            (rayColor F world mats lights background d
              ⟨rec1.p, dir, r.time⟩ (RNG.next g3).2).2))
      else
        ((mats rec1.mat).emitted rec1.u rec1.v rec1.p +
          (srec.attenuation.compMul
            ((mats rec1.mat).scatteringPdf r rec1 ⟨rec1.p, dir, r.time⟩ •
              (rayColor F world mats lights background d
                ⟨rec1.p, dir, r.time⟩ g3).1)).divQ pv,
          (rayColor F world mats lights background d ⟨rec1.p, dir, r.time⟩
            g3).2) := by
    simp only [rayColor]
    rw [hhit]
    simp only [Bool.not_true, Bool.false_eq_true, if_false]
    rw [hscat]
    simp only [Bool.not_true, Bool.false_eq_true, if_false]
    rw [hskip]
    simp only [Bool.false_eq_true, if_false]
    rw [hdraw]
    simp only []
    rw [if_neg hok]
  refine ⟨fun hd => ?_, fun hd => ?_⟩
  · rw [hbody, if_pos hd]
    exact ⟨fun hu => by rw [if_pos hu], fun hu => by rw [if_neg hu]⟩
  · rw [hbody, if_neg hd]

theorem ray_color_roulette_exactly_past_three_witness :
    Obj.hit F0 (quadTie 1) tieRay ⟨.fin (1 / 1000), .pinf⟩ HitRecord.dflt
        (RNG.const (9 / 10)) = ((tieRec 1, true), RNG.const (9 / 10)) ∧
    (c1Mats (tieRec 1).mat).scatter tieRay (tieRec 1) ScatterRec.new
        (RNG.const (9 / 10)) = ((c1Srec, true), RNG.const (9 / 10)) ∧
    c1Srec.skipPdf = false ∧
    rcDraw F0 none c1Srec (tieRec 1).p (RNG.const (9 / 10)) =
      ((⟨0, 0, -1⟩, 1), RNG.const (9 / 10)) ∧
    ¬ (1 : ℚ) < 1 / 1000000 ∧
    ((3 < 9 + 1 →
      ((RNG.next (RNG.const (9 / 10))).1 > 4 / 5 →
        rayColor F0 (quadTie 1) c1Mats none ⟨7, 7, 7⟩ (9 + 1) tieRay
            (RNG.const (9 / 10)) =
          ((c1Mats (tieRec 1).mat).emitted (tieRec 1).u (tieRec 1).v
            (tieRec 1).p, (RNG.next (RNG.const (9 / 10))).2)) ∧
      (¬ (RNG.next (RNG.const (9 / 10))).1 > 4 / 5 →
        rayColor F0 (quadTie 1) c1Mats none ⟨7, 7, 7⟩ (9 + 1) tieRay
            (RNG.const (9 / 10)) =
          ((c1Mats (tieRec 1).mat).emitted (tieRec 1).u (tieRec 1).v
            (tieRec 1).p +
            ((1 / (4 / 5 : ℚ)) • (c1Srec.attenuation.compMul
              ((c1Mats (tieRec 1).mat).scatteringPdf tieRay (tieRec 1)
                  ⟨(tieRec 1).p, ⟨0, 0, -1⟩, tieRay.time⟩ •
                (rayColor F0 (quadTie 1) c1Mats none ⟨7, 7, 7⟩ 9
                  ⟨(tieRec 1).p, ⟨0, 0, -1⟩, tieRay.time⟩
                  (RNG.next (RNG.const (9 / 10))).2).1))).divQ 1,
            (rayColor F0 (quadTie 1) c1Mats none ⟨7, 7, 7⟩ 9
              ⟨(tieRec 1).p, ⟨0, 0, -1⟩, tieRay.time⟩
              (RNG.next (RNG.const (9 / 10))).2).2))) ∧
    (¬ 3 < 9 + 1 →
      rayColor F0 (quadTie 1) c1Mats none ⟨7, 7, 7⟩ (9 + 1) tieRay
          (RNG.const (9 / 10)) =
        ((c1Mats (tieRec 1).mat).emitted (tieRec 1).u (tieRec 1).v
          (tieRec 1).p +
          (c1Srec.attenuation.compMul
            ((c1Mats (tieRec 1).mat).scatteringPdf tieRay (tieRec 1)
                ⟨(tieRec 1).p, ⟨0, 0, -1⟩, tieRay.time⟩ •
              (rayColor F0 (quadTie 1) c1Mats none ⟨7, 7, 7⟩ 9
                ⟨(tieRec 1).p, ⟨0, 0, -1⟩, tieRay.time⟩
                (RNG.const (9 / 10))).1)).divQ 1,
          (rayColor F0 (quadTie 1) c1Mats none ⟨7, 7, 7⟩ 9
            ⟨(tieRec 1).p, ⟨0, 0, -1⟩, tieRay.time⟩
            (RNG.const (9 / 10))).2))) :=
  ⟨c1_quad_hit (RNG.const (9 / 10)), rfl, rfl, rfl, by norm_num,
    ray_color_roulette_exactly_past_three F0 (quadTie 1) c1Mats none
      ⟨7, 7, 7⟩ 9 tieRay (RNG.const (9 / 10)) (tieRec 1)
      (RNG.const (9 / 10)) c1Srec (RNG.const (9 / 10)) ⟨0, 0, -1⟩ 1
      (RNG.const (9 / 10)) (c1_quad_hit (RNG.const (9 / 10))) rfl rfl rfl
      (by norm_num)⟩

/-- A texture (`dyn Texture`): `value(u, v, p)`. -/
def Tex : Type := ℚ → ℚ → Vec3 → Vec3

/-- The four concrete materials of the repository (plus `NoMaterial`),
with the fields their Rust structs store. -/
inductive MaterialImpl where
  | lambertian (albedo : Tex)
  | metal (albedo : Vec3) (fuzz : ℚ)
  | dielectric (refractionIdx : ℚ)
  | isotropic (albedo : Tex)
  | noMaterial

/-- `Metal::new`: clamps the fuzz into `[0, 1]`. -/
def Metal.new (albedo : Vec3) (fuzz : ℚ) : MaterialImpl :=
  .metal albedo (fclamp fuzz 0 1)

/-- `Dielectric::reflectance` (Schlick). -/
def Dielectric.reflectance (cosine refractionRatio : ℚ) : ℚ :=
  let r0 := (1 - refractionRatio) / (1 + refractionRatio)
  let r0Squared := r0 * r0
  r0Squared + (1 - r0Squared) * (1 - cosine) ^ 5

/-- `Material::scatter` for every material of the repository.
`Dielectric` draws its reflect/refract coin only when refraction is
possible, matching the short-circuit `||` of the source. -/
def MaterialImpl.scatter (F : FloatOps) :
    MaterialImpl → Ray → HitRecord → ScatterRec → RNG →
      (ScatterRec × Bool) × RNG
  | .lambertian albedo, _, rec1, srec, g =>
    ((srec.set_diffuse (albedo rec1.u rec1.v rec1.p)
      (CosinePDF.new F rec1.normal), true), g)
  | .metal albedo fuzz, rIn, rec1, srec, g =>
    let reflected := (rIn.dir.normalize F).reflect rec1.normal
    let s := Vec3.randomInUnitSphere g
    let scatteredDir := reflected + fuzz • s.1
    if scatteredDir.dot rec1.normal ≤ 0 then ((srec, false), s.2)
    else
      ((srec.set_specular albedo ⟨rec1.p, scatteredDir, rIn.time⟩, true),
        s.2)
  | .dielectric refractionIdx, rIn, rec1, srec, g =>
    let ri := if rec1.frontFace then 1 / refractionIdx else refractionIdx
    let unitDirection := rIn.dir.normalize F
    let cosTheta := min ((-unitDirection).dot rec1.normal) 1
    let sinTheta := F.sqrt (1 - cosTheta * cosTheta)
    let cannotRefract := ri * sinTheta > 1
    let pick : Bool × RNG :=
      if cannotRefract then (true, g)
      else
        let s := RNG.next g
        (decide (Dielectric.reflectance cosTheta ri > s.1), s.2)
    let direction := if pick.1 then unitDirection.reflect rec1.normal
      else unitDirection.refract F rec1.normal ri
    ((srec.set_specular ⟨1, 1, 1⟩ ⟨rec1.p, direction, rIn.time⟩, true),
      pick.2)
  | .isotropic albedo, _, rec1, srec, g =>
    ((srec.set_diffuse (albedo rec1.u rec1.v rec1.p) (spherePDFo F),
      true), g)
  | .noMaterial, _, _, srec, g => ((srec, false), g)

theorem fst_fst_eq' {A B C : Type} {a a' : A} {b b' : B} {c c' : C}
    (h : ((a, b), c) = ((a', b'), c')) : a = a' :=
  congrArg (fun s => s.1.1) h

theorem snd_fst_eq' {A B C : Type} {a a' : A} {b b' : B} {c c' : C}
    (h : ((a, b), c) = ((a', b'), c')) : b = b' :=
  congrArg (fun s => s.1.2) h

/-- The specular mode of a `ScatterRecord`: skip the pdf machinery and
follow the stored ray. -/
def SpecularMode (s : ScatterRec) : Prop :=
  s.skipPdf = true ∧ s.pdfPtr = none

/-- The diffuse mode of a `ScatterRecord`: sample through the stored
pdf. -/
def DiffuseMode (s : ScatterRec) : Prop :=
  s.skipPdf = false ∧ s.pdfPtr.isSome = true

/-- C8: whenever any of the repository's materials returns `true` from
`scatter`, the resulting `ScatterRecord` is in exactly one of the two
modes: specular (`skip_pdf` set, no pdf) or diffuse (`skip_pdf` clear,
pdf present) — never both, never neither. -/
theorem scatter_exactly_one_mode (F : FloatOps) (m : MaterialImpl)
    (rIn : Ray) (rec1 : HitRecord) (srec0 : ScatterRec) (g : RNG)
    (srec : ScatterRec) (g' : RNG)
    (h : MaterialImpl.scatter F m rIn rec1 srec0 g = ((srec, true), g')) :
    (SpecularMode srec ∧ ¬ DiffuseMode srec) ∨
      (DiffuseMode srec ∧ ¬ SpecularMode srec) := by
  cases m with
  | lambertian albedo =>
    simp only [MaterialImpl.scatter] at h
    rw [← fst_fst_eq' h]
    right
    simp [DiffuseMode, SpecularMode, ScatterRec.set_diffuse]
  | metal albedo fuzz =>
    simp only [MaterialImpl.scatter] at h
    by_cases hc : (((rIn.dir.normalize F).reflect rec1.normal) +
        fuzz • (Vec3.randomInUnitSphere g).1).dot rec1.normal ≤ 0
    · rw [if_pos hc] at h
      exact absurd (snd_fst_eq' h) (by simp)
    · rw [if_neg hc] at h
      rw [← fst_fst_eq' h]
      left
      simp [DiffuseMode, SpecularMode, ScatterRec.set_specular]
  | dielectric refractionIdx =>
    simp only [MaterialImpl.scatter] at h
    rw [← fst_fst_eq' h]
    left
    simp [DiffuseMode, SpecularMode, ScatterRec.set_specular]
  | isotropic albedo =>
    simp only [MaterialImpl.scatter] at h
    rw [← fst_fst_eq' h]
    right
    simp [DiffuseMode, SpecularMode, ScatterRec.set_diffuse]
  | noMaterial =>
    simp only [MaterialImpl.scatter] at h
    exact absurd (snd_fst_eq' h) (by simp)

/-- A constant red texture. -/
def c8Tex : Tex := fun _ _ _ => ⟨1, 0, 0⟩

/-- The scatter record a lambertian with `c8Tex` produces at `recW`. -/
def c8Srec : ScatterRec :=
  ScatterRec.set_diffuse ScatterRec.new (c8Tex recW.u recW.v recW.p)
    (CosinePDF.new F0 recW.normal)

theorem scatter_exactly_one_mode_witness :
    MaterialImpl.scatter F0 (.lambertian c8Tex) cRay recW ScatterRec.new
        (RNG.const 0) = ((c8Srec, true), RNG.const 0) ∧
      ((SpecularMode c8Srec ∧ ¬ DiffuseMode c8Srec) ∨
        (DiffuseMode c8Srec ∧ ¬ SpecularMode c8Srec)) :=
  ⟨rfl, scatter_exactly_one_mode F0 (.lambertian c8Tex) cRay recW
    ScatterRec.new (RNG.const 0) c8Srec (RNG.const 0) rfl⟩

end RT
